import Mathlib

/-!
Verification of the excel-reader image-resolution subsystem.

This file shallowly embeds the TypeScript sources of the repository
(`RelationshipParser.ts`, `DrawingParser.ts`, `ImageExtractor.ts`,
`FloatingImageManager.ts` and the `ExcelImageReader` class) as executable
Lean definitions, and proves or refutes the specified properties of the
image pipeline.

Modelling conventions:
* JavaScript `Map` objects are modelled as association lists in insertion
  order.  `mapSet` overwrites an existing key in place (JS `Map.set`
  semantics), `mapGet` is `Map.get`, `mapHas` is `Map.has`.
* XML documents are modelled post-parse: the already-shaped element trees
  that `fast-xml-parser` hands to the code, with optional attributes as
  `Option` fields.  A thrown parse error is modelled as `none` input.
* Numbers that the code only ever treats as integers (EMU offsets, row and
  column indices, style ids, row heights) are modelled as `Int`/`Nat`.
* Cell-reference strings are produced by `encodeCell`, a faithful model of
  `XLSX.utils.encode_cell`; binding tables that the source keys by such
  strings are keyed here by the underlying 0-based `(row, col)` pair, which
  is equivalent because `encode_cell` is injective on coordinates.
* Asynchronous binary extraction from the ZIP archive is modelled by an
  explicit function parameter `extract : String → Option ImageExtractionResult`
  standing for `ImageExtractor.extractImageData` applied to the media path
  (`none` models a missing part or a thrown extraction error).
-/

namespace ExcelReader

/-! ### Association-list model of JavaScript `Map` -/

/-- `Map.get`: value at a key, `none` when absent. -/
def mapGet {κ α : Type} [DecidableEq κ] (m : List (κ × α)) (k : κ) : Option α :=
  (m.find? (fun p => p.1 = k)).map (·.2)

/-- `Map.has`. -/
def mapHas {κ α : Type} [DecidableEq κ] (m : List (κ × α)) (k : κ) : Bool :=
  m.any (fun p => p.1 = k)

/-- `Map.set`: replaces in place when the key exists, otherwise appends
(JS `Map` keeps the original insertion position on overwrite). -/
def mapSet {κ α : Type} [DecidableEq κ] (m : List (κ × α)) (k : κ) (v : α) :
    List (κ × α) :=
  if mapHas m k then m.map (fun p => if p.1 = k then (k, v) else p)
  else m ++ [(k, v)]

/-! ### String helpers (models of the JS string operations used) -/

/-- Whitespace recognised by JS `String.prototype.trim` (the characters the
repository can actually meet in attribute values). -/
def isJsSpace (c : Char) : Bool :=
  c = ' ' || c = '\t' || c = '\n' || c = '\r'

/-- JS `String.prototype.trim`. -/
def strTrim (s : String) : String :=
  String.mk (((s.toList.dropWhile isJsSpace).reverse.dropWhile isJsSpace).reverse)

/-- Prefix test on character lists. -/
def listStartsWith : List Char → List Char → Bool
  | [], _ => true
  | _ :: _, [] => false
  | a :: as, b :: bs => a = b && listStartsWith as bs

/-- JS `String.prototype.startsWith`. -/
def strStartsWith (s pre : String) : Bool :=
  listStartsWith pre.toList s.toList

/-- JS `String.prototype.includes`: substring containment. -/
def strContains (s pat : String) : Bool :=
  (s.toList.tails).any (fun t => listStartsWith pat.toList t)

/-- `target.replace(/^\.\.\//, '')`: drop one leading `../`. -/
def dropDotDotSlash (s : String) : String :=
  String.mk (s.toList.drop 3)

/-- `target.replace(/^\/+/, '')`: drop all leading slashes. -/
def dropLeadingSlashes (s : String) : String :=
  String.mk (s.toList.dropWhile (· = '/'))

/-- JS `String.prototype.toLowerCase` restricted to ASCII (all inputs the
code compares are ASCII keywords such as `External`). -/
def strToLower (s : String) : String :=
  String.mk (s.toList.map Char.toLower)

/-! ### RelationshipParser -/

/-- `RelationshipInfo` (RelationshipParser.ts). -/
structure RelationshipInfo where
  id : String
  type : String
  target : String
  targetMode : Option String
  deriving Repr, DecidableEq

/-- One `<Relationship>` element as `fast-xml-parser` delivers it: every
attribute optional.  An attribute that is present but empty is modelled as
`some ""` (falsy in the JS guards). -/
structure RelElement where
  relId : Option String
  relType : Option String
  relTarget : Option String
  relTargetMode : Option String
  deriving Repr, DecidableEq

/-- JS truthiness of an optional string attribute. -/
def attrTruthy (a : Option String) : Bool :=
  match a with
  | none => false
  | some s => s ≠ ""

/-- A `Relationship` element carrying truthy `Id`, `Type` and `Target`. -/
def relComplete (e : RelElement) : Bool :=
  attrTruthy e.relId && attrTruthy e.relType && attrTruthy e.relTarget

/-- Loop body of `parseRelationships`: an element with truthy `Id`, `Type`
and `Target` is stored under its id, any other element is dropped. -/
def relStep (m : List (String × RelationshipInfo)) (e : RelElement) :
    List (String × RelationshipInfo) :=
  match e.relId, e.relType, e.relTarget with
  | some id, some t, some tgt =>
    if id ≠ "" ∧ t ≠ "" ∧ tgt ≠ "" then
      mapSet m id ⟨id, t, tgt, e.relTargetMode⟩
    else m
  | _, _, _ => m

/-- `RelationshipParser.parseRelationships`.  The argument is the parsed
`<Relationships>` element list: `none` when the XML parser threw (the catch
swallows the error and the empty map is returned), and also covers the
`!rels` early return (absent list ≅ `some []`). -/
def parseRelationships (doc : Option (List RelElement)) :
    List (String × RelationshipInfo) :=
  match doc with
  | none => []
  | some list => list.foldl relStep []

/-- The two folders `normalizeTargetPath` can be called from. -/
inductive Folder where
  | worksheets
  | drawings
  deriving Repr, DecidableEq

/-- `RelationshipParser.normalizeTargetPath`. -/
def normalizeTargetPath (fromFolder : Folder) (target : String) : String :=
  match fromFolder with
  | .worksheets =>
    if strStartsWith target "../" then dropDotDotSlash target
    else if strStartsWith target "/" then dropLeadingSlashes target
    else if !strStartsWith target "worksheets/" &&
            !strStartsWith target "drawings/" &&
            !strStartsWith target "media/" then
      "worksheets/" ++ target
    else target
  | .drawings =>
    if strStartsWith target "../" then dropDotDotSlash target
    else if strStartsWith target "/" then dropLeadingSlashes target
    else if !strStartsWith target "drawings/" &&
            !strStartsWith target "media/" then
      "drawings/" ++ target
    else target

/-- `RelationshipParser.findDrawingRelationship`: first relationship whose
type URI contains the drawing marker. -/
def findDrawingRelationship (m : List (String × RelationshipInfo)) :
    Option RelationshipInfo :=
  (m.find? (fun p => strContains p.2.type "/relationships/drawing")).map (·.2)

/-! ### Cell-reference encoding (`XLSX.utils.encode_cell`) -/

/-- Loop body of SheetJS `encode_col` (bijective base-26 letters); the fuel
argument makes the recursion structural, `fuel = c` always suffices since
`(c-1)/26 < c` for `c > 0`. -/
def encodeColAux (fuel c : Nat) : String :=
  match fuel with
  | 0 => ""
  | fuel + 1 =>
    if c = 0 then ""
    else encodeColAux fuel ((c - 1) / 26) ++
      String.mk [Char.ofNat (65 + (c - 1) % 26)]

/-- `XLSX.utils.encode_col` of a 0-based column index: `0 ↦ "A"`, `27 ↦ "AB"`. -/
def encodeCol (c : Nat) : String :=
  encodeColAux (c + 1) (c + 1)

/-- `XLSX.utils.encode_cell({r, c})`: column letters followed by the 1-based
row number. -/
def encodeCell (r c : Nat) : String :=
  encodeCol c ++ toString (r + 1)

/-! ### ImageExtractor -/

/-- EMU offset/extent rectangle. -/
structure Position where
  x : Int
  y : Int
  width : Int
  height : Int
  deriving Repr, DecidableEq

/-- `ImageExtractionResult` (types.ts): payload returned by
`ImageExtractor.extractImageData`.  Raw bytes are modelled as `List Nat`. -/
structure ImageExtractionResult where
  base64 : String
  mimeType : String
  rawData : List Nat
  deriving Repr, DecidableEq

/-- `CellImage` (types.ts). -/
structure CellImage where
  id : String
  description : String
  base64 : String
  mimeType : String
  position : Position
  relationshipId : String
  deriving Repr, DecidableEq

/-- `ImageExtractor.getMimeTypeFromPath`: extension-based MIME heuristic. -/
def getMimeTypeFromPath (path : String) : String :=
  let ext := ((strToLower path).splitOn ".").getLastD ""
  if ext = "jpg" || ext = "jpeg" then "image/jpeg"
  else if ext = "png" then "image/png"
  else if ext = "gif" then "image/gif"
  else if ext = "bmp" then "image/bmp"
  else if ext = "webp" then "image/webp"
  else "image/jpeg"

/-- `ImageExtractor.createCellImage`. -/
def createCellImage (id description relationshipId : String)
    (position : Position) (r : ImageExtractionResult) : CellImage :=
  ⟨id, description, r.base64, r.mimeType, position, relationshipId⟩

/-! ### DrawingParser -/

/-- The picture payload of an anchor (or of a named cell-image item): the
fields `extractImageFromAnchor`/`parseCellImagesXml` read from
`xdr:pic`.  `name`/`idAttr` are `none` when absent or of the wrong JS type
(`idAttr` is the already-stringified `cNvPr.id`). -/
structure PicData where
  name : Option String
  idAttr : Option String
  descr : Option String
  embed : Option String
  offX : Option Int
  offY : Option Int
  extCX : Option Int
  extCY : Option Int
  deriving Repr, DecidableEq

/-- `mc:AlternateContent` wrapper: the optional pictures of its
`mc:Choice` and `mc:Fallback` branches. -/
structure AltContent where
  choicePic : Option PicData
  fallbackPic : Option PicData
  deriving Repr, DecidableEq

/-- One `twoCellAnchor`/`oneCellAnchor` element.  `fromRow`/`fromCol` are
`none` when `Number(from.row/col)` is not finite (missing attribute). -/
structure Anchor where
  pic : Option PicData
  alternate : Option AltContent
  fromRow : Option Nat
  fromCol : Option Nat
  deriving Repr, DecidableEq

/-- `FloatingImageInfo` (DrawingParser.ts). -/
structure FloatingImageInfo where
  id : String
  description : String
  relationshipId : String
  position : Position
  cellRef : String
  rowIndex : Nat
  colIndex : Nat
  deriving Repr, DecidableEq

/-- The id-derivation chain of `extractImageFromAnchor`
(`nameCandidate || idCandidate || relCandidate || floating_<cellRef>`,
JS `||` on strings picks the first non-empty). -/
def deriveImageId (name idAttr : Option String) (relId cellRef : String) :
    String :=
  let nameCandidate := match name with | some s => strTrim s | none => ""
  let idCandidate := match idAttr with | some s => strTrim s | none => ""
  let relCandidate := strTrim relId
  if nameCandidate ≠ "" then nameCandidate
  else if idCandidate ≠ "" then idCandidate
  else if relCandidate ≠ "" then relCandidate
  else "floating_" ++ cellRef

/-- `DrawingParser.extractImageFromAnchor`. -/
def extractImageFromAnchor (a : Anchor) : Option FloatingImageInfo :=
  match a.pic with
  | none => none
  | some p =>
    let description := p.descr.getD ""
    let relationshipId := p.embed.getD ""
    if relationshipId = "" then none
    else
      let position : Position :=
        ⟨p.offX.getD 0, p.offY.getD 0, p.extCX.getD 0, p.extCY.getD 0⟩
      match a.fromRow, a.fromCol with
      | some r, some c =>
        let cellRef := encodeCell r c
        some { id := deriveImageId p.name p.idAttr relationshipId cellRef
               description := description
               relationshipId := relationshipId
               position := position
               cellRef := cellRef
               rowIndex := r
               colIndex := c }
      | _, _ => none

/-- The `mc:AlternateContent` unwrap step of `parseDrawingXml`: prefer the
choice branch's picture, fall back to the fallback branch's. -/
def unwrapAlternate (a : Anchor) : Anchor :=
  match a.alternate with
  | none => a
  | some ac =>
    match ac.choicePic <|> ac.fallbackPic with
    | some p => { a with pic := some p, alternate := none }
    | none => a

/-- `DrawingParser.parseDrawingXml`: all `twoCellAnchor` then all
`oneCellAnchor` elements, alternate-content unwrapped, each anchor yielding
at most one descriptor. -/
def parseDrawingXml (twoCell oneCell : List Anchor) : List FloatingImageInfo :=
  ((twoCell ++ oneCell).map unwrapAlternate).filterMap extractImageFromAnchor

/-! ### FloatingImageManager -/

/-- Annotation attached to a floating image by the media-resolution loop of
`parseDrawingFile`: either a skip marker (`__skip`) or the normalized media
path (`mediaPath`). -/
inductive MediaAnnot where
  | skip (reason : String)
  | media (path : String)
  deriving Repr, DecidableEq

/-- A floating image together with its media annotation. -/
structure AnnotatedImage where
  info : FloatingImageInfo
  annot : MediaAnnot
  deriving Repr, DecidableEq

/-- The per-image media resolution of `FloatingImageManager.parseDrawingFile`:
look the relationship id up in the drawing's own `.rels` map, mark external
targets and missing relationships as skips, otherwise record the media path
normalized relative to the `drawings` folder. -/
def annotateFloatingImage (drawingRels : List (String × RelationshipInfo))
    (info : FloatingImageInfo) : AnnotatedImage :=
  match mapGet drawingRels info.relationshipId with
  | none => ⟨info, .skip "missing_relationship"⟩
  | some rel =>
    if attrTruthy rel.targetMode ∧ strToLower (rel.targetMode.getD "") = "external" then
      ⟨info, .skip "external"⟩
    else
      ⟨info, .media (normalizeTargetPath .drawings rel.target)⟩

/-- `FloatingImageManager.parseDrawingFile`, media-resolution part: annotate
every parsed floating image of one drawing part. -/
def annotateDrawing (drawingRels : List (String × RelationshipInfo))
    (infos : List FloatingImageInfo) : List AnnotatedImage :=
  infos.map (annotateFloatingImage drawingRels)

/-- Joint mutable state of `ExcelParseResult` and the manager during image
extraction: the id→image map, the error list, and the
`floatingImagesBySheet` binding table (sheet → anchor cell → image ids; the
source keys the inner map by `encode_cell` strings, modelled here by the
0-based coordinate pair those strings encode). -/
structure PipelineState where
  images : List (String × CellImage)
  errors : List String
  bindings : List (String × List ((Nat × Nat) × List String))
  deriving Repr, DecidableEq

/-- The diagnostic pushed for a skipped floating image. -/
def skipMsg (reason : String) (info : FloatingImageInfo) (sheet : String) :
    String :=
  "[skip] reason=" ++ reason ++ " id=" ++ info.id ++ " sheet=" ++ sheet ++
    " cell=" ++ info.cellRef

/-- `FloatingImageManager.bindImageToCell`. -/
def bindImageToCell (b : List (String × List ((Nat × Nat) × List String)))
    (sheet : String) (cell : Nat × Nat) (id : String) :
    List (String × List ((Nat × Nat) × List String)) :=
  let byCell := (mapGet b sheet).getD []
  let ids := (mapGet byCell cell).getD []
  mapSet b sheet (mapSet byCell cell (ids ++ [id]))

/-- `FloatingImageManager.processFloatingImage`.  `extract` models the
asynchronous `ImageExtractor.extractImageData` (`none` = missing media part
or extraction failure). -/
def processFloatingImage (extract : String → Option ImageExtractionResult)
    (sheetName : String) (st : PipelineState) (d : AnnotatedImage) :
    PipelineState :=
  match d.annot with
  | .skip reason =>
    { st with errors := st.errors ++ [skipMsg reason d.info sheetName] }
  | .media path =>
    if path = "" then
      { st with errors := st.errors ++ [skipMsg "missing_media_path" d.info sheetName] }
    else
      match extract path with
      | none =>
        { st with errors := st.errors ++ [skipMsg "extract_failed" d.info sheetName] }
      | some r =>
        let cellImage := createCellImage d.info.id d.info.description
          d.info.relationshipId d.info.position r
        { st with
            images :=
              if mapHas st.images d.info.id then st.images
              else mapSet st.images d.info.id cellImage
            bindings := bindImageToCell st.bindings sheetName
              (d.info.rowIndex, d.info.colIndex) d.info.id }

/-- The per-sheet loop of `parseSheetFloatingImages`: process every
annotated floating image of one sheet in order. -/
def processSheetImages (extract : String → Option ImageExtractionResult)
    (sheetName : String) (st : PipelineState) (ds : List AnnotatedImage) :
    PipelineState :=
  ds.foldl (processFloatingImage extract sheetName) st

/-- `FloatingImageManager.parseFloatingImages`: iterate the sheets of the
workbook in order, processing each sheet's annotated drawing images. -/
def parseFloatingImagesPhase (extract : String → Option ImageExtractionResult)
    (sheets : List (String × List AnnotatedImage)) (st : PipelineState) :
    PipelineState :=
  sheets.foldl (fun st s => processSheetImages extract s.1 st s.2) st

/-- `FloatingImageManager.getSheetFloatingImages`. -/
def getSheetFloatingImages (st : PipelineState) (sheetName : String) :
    List ((Nat × Nat) × List String) :=
  (mapGet st.bindings sheetName).getD []

/-! ### Named cell images (`ExcelImageReader.parseCellImagesXml` and
`parseCellImages`) -/

/-- One named cell-image descriptor (the anonymous record shape returned by
`parseCellImagesXml`). -/
structure NamedCellImage where
  id : String
  description : String
  position : Position
  relationshipId : String
  deriving Repr, DecidableEq

/-- `ExcelImageReader.parseCellImagesXml`: walk each `etc:cellImage` item
(`none` models an absent item or one without a picture); keep those whose
name and embed id are truthy.  The `Number.isFinite` guards always hold in
the integer model. -/
def parseCellImagesXml (items : List (Option PicData)) : List NamedCellImage :=
  items.filterMap (fun it =>
    match it with
    | none => none
    | some p =>
      let id := p.name.getD ""
      let relationshipId := p.embed.getD ""
      if id ≠ "" ∧ relationshipId ≠ "" then
        some { id := id
               description := p.descr.getD ""
               position := ⟨p.offX.getD 0, p.offY.getD 0, p.extCX.getD 0, p.extCY.getD 0⟩
               relationshipId := relationshipId }
      else none)

/-- `ExcelImageReader.parseCellImages`, resolution loop: for each named
cell image, resolve its relationship, extract the binary at the
relationship's raw target, and register it with an unconditional
`result.images.set`. -/
def parseCellImagesPhase (extract : String → Option ImageExtractionResult)
    (relationshipMap : List (String × RelationshipInfo))
    (cellImages : List NamedCellImage) (st : PipelineState) : PipelineState :=
  cellImages.foldl
    (fun st ci =>
      match mapGet relationshipMap ci.relationshipId with
      | none => st
      | some rel =>
        match extract rel.target with
        | none => st
        | some r =>
          let img := createCellImage ci.id ci.description ci.relationshipId
            ci.position r
          { st with images := mapSet st.images ci.id img })
    st

/-- `ExcelImageReader.extractImagesFromBuffer`, image part: named cell
images are resolved first, floating images afterwards, starting from the
fresh state of a new parse. -/
def extractImagesPipeline (extract : String → Option ImageExtractionResult)
    (relationshipMap : List (String × RelationshipInfo))
    (named : List NamedCellImage)
    (sheets : List (String × List AnnotatedImage)) : PipelineState :=
  parseFloatingImagesPhase extract sheets
    (parseCellImagesPhase extract relationshipMap named ⟨[], [], []⟩)

/-! ### ExcelImageReader: cells and worksheets -/

/-- A JS value held in a SheetJS cell's `v` field (dates/errors do not
occur in the paths the claims exercise; the code only branches on whether
`v` is a string). -/
inductive JSValue where
  | str (s : String)
  | num (n : Int)
  | boolean (b : Bool)
  deriving Repr, DecidableEq

/-- JS `String(v)`. -/
def jsValueToString : JSValue → String
  | .str s => s
  | .num n => toString n
  | .boolean b => if b then "true" else "false"

/-- `String(cell.v ?? '')`. -/
def jsStringOf (v : Option JSValue) : String :=
  match v with
  | none => ""
  | some v => jsValueToString v

/-- A SheetJS cell object: raw value `v`, type tag `t`, formula `f`,
style index `s`. -/
structure SheetCell where
  v : Option JSValue
  t : Option Char
  f : Option String
  s : Option Nat
  deriving Repr, DecidableEq

/-- JS truthiness of the optional formula string. -/
def fTruthy (f : Option String) : Bool :=
  match f with
  | none => false
  | some s => s ≠ ""

/-- The literal part of the regex `/DISPIMG\("([^"]+)"/`. -/
def dispimgPat : List Char := "DISPIMG(\"".toList

/-- First match of `/DISPIMG\("([^"]+)"/` over a character list: at each
start position where the literal matches, the capture is the maximal
non-empty run of non-quote characters followed by a closing quote;
otherwise the scan advances one position (regex retry). -/
def dispimgFind : List Char → Option String
  | [] => none
  | c :: t =>
    if listStartsWith dispimgPat (c :: t) then
      let rem := (c :: t).drop dispimgPat.length
      let cap := rem.takeWhile (fun ch => ch ≠ '"')
      if cap ≠ [] ∧ (rem.drop cap.length).head? = some '"' then
        some (String.mk cap)
      else dispimgFind t
    else dispimgFind t

/-- `text.match(/DISPIMG\("([^"]+)"/)`, capture group 1. -/
def extractDispimgId (text : String) : Option String :=
  dispimgFind text.toList

/-- `CellData` (types.ts). -/
structure CellData where
  ref : String
  value : String
  type : String
  styleId : Option Nat
  image : Option CellImage
  formula : Option String
  deriving Repr, DecidableEq

/-- The DISPIMG branch body of `parseCell`: force the type to `image` and
attach the referenced image when its id resolves in the registry. -/
def applyDispimg (cd : CellData) (text : String)
    (images : List (String × CellImage)) : CellData :=
  let cd := { cd with type := "image" }
  match extractDispimgId text with
  | some imageId =>
    match mapGet images imageId with
    | some image => { cd with image := some image }
    | none => cd
  | none => cd

/-- `ExcelImageReader.parseCell`. -/
def parseCell (cell : Option SheetCell) (cellRef : String)
    (images : List (String × CellImage)) : CellData :=
  match cell with
  | none =>
    { ref := cellRef, value := "", type := "string", styleId := none
      image := none, formula := none }
  | some c =>
    let base : CellData :=
      { ref := cellRef, value := jsStringOf c.v, type := "string"
        styleId := c.s, image := none, formula := none }
    let typed :=
      if c.t = some 's' then base
      else if c.t = some 'n' then { base with type := "number" }
      else if fTruthy c.f then { base with type := "formula", formula := c.f }
      else base
    match c.v with
    | some (.str s) =>
      if strContains s "DISPIMG" then applyDispimg typed s images
      else
        match c.f with
        | some f =>
          if f ≠ "" ∧ strContains f "DISPIMG" then applyDispimg typed f images
          else typed
        | none => typed
    | _ =>
      match c.f with
      | some f =>
        if f ≠ "" ∧ strContains f "DISPIMG" then applyDispimg typed f images
        else typed
      | none => typed

/-- `ExcelImageReader.isImageCell`. -/
def isImageCell (cell : Option SheetCell) : Bool :=
  match cell with
  | none => false
  | some c =>
    (match c.v with
     | some (.str s) => strContains s "DISPIMG"
     | _ => false) ||
    (match c.f with
     | some f => f ≠ "" && strContains f "DISPIMG"
     | none => false)

/-- `ExcelImageReader.extractImageIdFromCell`: prefer the formula text,
fall back to a string value. -/
def extractImageIdFromCell (cell : Option SheetCell) : Option String :=
  match cell with
  | none => none
  | some c =>
    let fHas := match c.f with
      | some f => f ≠ "" && strContains f "DISPIMG"
      | none => false
    let textToSearch :=
      if fHas then c.f.getD ""
      else
        match c.v with
        | some (.str s) => if strContains s "DISPIMG" then s else ""
        | _ => ""
    if textToSearch ≠ "" then extractDispimgId textToSearch else none

/-- One `!cols` entry of a SheetJS worksheet. -/
structure SheetColMeta where
  min : Option Nat
  max : Option Nat
  width : Option Nat
  customWidth : Option Bool
  deriving Repr, DecidableEq

/-- A column record emitted by `parseColumns`. -/
structure ColRecord where
  min : Nat
  max : Nat
  width : Nat
  customWidth : Bool
  deriving Repr, DecidableEq

/-- JS `a || d` for an optional number (`0` is falsy). -/
def jsOrNat (a : Option Nat) (d : Nat) : Nat :=
  match a with
  | some n => if n = 0 then d else n
  | none => d

/-- `ExcelImageReader.parseColumns`. -/
def parseColumns (cols : Option (List SheetColMeta)) : List ColRecord :=
  (cols.getD []).map (fun col =>
    { min := jsOrNat col.min 0
      max := jsOrNat col.max 0
      width := jsOrNat col.width 9
      customWidth := col.customWidth.getD false })

/-- `RowData` (types.ts). -/
structure RowData where
  rowNumber : Nat
  height : Option Nat
  customHeight : Option Bool
  cells : List CellData
  imageCount : Nat
  imageCells : List String
  deriving Repr, DecidableEq

/-- `WorksheetData` (types.ts); `dimension` is the `(start, end)` pair of
A1-style references. -/
structure WorksheetData where
  name : String
  dimension : String × String
  rows : List RowData
  columns : List ColRecord
  totalImages : Nat
  rowsWithImages : Nat
  deriving Repr, DecidableEq

/-- `ParseOptions` (types.ts) restricted to the fields `parseWorksheet`
reads. -/
structure ParseOptions where
  includeEmptyRows : Bool := false
  includeEmptyColumns : Bool := false
  deriving Repr, DecidableEq

/-- A SheetJS worksheet as `parseWorksheet` consumes it: the declared
`!ref` range decoded to 0-based `((startRow, startCol), (endRow, endCol))`
(`none` when `!ref` is absent, in which case the code falls back to
`'A1:A1'`), the populated cells keyed by coordinates, the truthy `hpt`
entries of `!rows`, and `!cols`. -/
structure Worksheet where
  ref : Option ((Nat × Nat) × (Nat × Nat))
  cells : List ((Nat × Nat) × SheetCell)
  rowsMeta : List (Nat × Nat)
  cols : Option (List SheetColMeta)
  deriving Repr, DecidableEq

/-- `lo..hi` inclusive (empty when `hi < lo`), the index list of a JS
`for (let i = lo; i <= hi; i++)` loop. -/
def natRange (lo hi : Nat) : List Nat :=
  List.range' lo (hi + 1 - lo)

/-- Accumulator of the column loop of `parseWorksheet`: the per-row
`rowSeen` set, the row record under construction, and this row's
increments to the sheet's running `totalImages`. -/
structure RowState where
  seen : List String
  row : RowData
  total : Nat
  deriving Repr, DecidableEq

/-- The floating-image counting loop at one cell: each bound id not yet
seen in this row is marked seen and counted (row counter, sheet total, and
the image-cell list). -/
def processFloatingIds (cellRef : String) (floatingIds : List String)
    (st : RowState) : RowState :=
  floatingIds.foldl
    (fun st fid =>
      if st.seen.contains fid then st
      else
        { st with
            seen := st.seen ++ [fid]
            row := { st.row with
                       imageCount := st.row.imageCount + 1
                       imageCells := st.row.imageCells ++ [cellRef] }
            total := st.total + 1 })
    st

/-- The body of `parseWorksheet`'s column loop. -/
def processColumn (ws : Worksheet) (images : List (String × CellImage))
    (options : ParseOptions) (floating : List ((Nat × Nat) × List String))
    (rowNum : Nat) (st : RowState) (colNum : Nat) : RowState :=
  let cellRef := encodeCell rowNum colNum
  let cell := mapGet ws.cells (rowNum, colNum)
  let floatingIds := (mapGet floating (rowNum, colNum)).getD []
  let st := processFloatingIds cellRef floatingIds st
  if cell.isSome || options.includeEmptyColumns then
    let cellData := parseCell cell cellRef images
    let cellData :=
      if cellData.image.isNone ∧ floatingIds ≠ [] then
        match floatingIds.head? with
        | some fid0 =>
          match mapGet images fid0 with
          | some img => { cellData with image := some img }
          | none => cellData
        | none => cellData
      else cellData
    let st := { st with row := { st.row with cells := st.row.cells ++ [cellData] } }
    if isImageCell cell then
      match extractImageIdFromCell cell with
      | some imageId =>
        if mapHas images imageId then
          { st with
              row := { st.row with
                         imageCount := st.row.imageCount + 1
                         imageCells := st.row.imageCells ++ [cellRef] }
              total := st.total + 1 }
        else st
      | none => st
    else st
  else st

/-- The body of `parseWorksheet`'s row loop: build one `RowData` and this
row's contribution to the sheet's `totalImages`. -/
def processRow (ws : Worksheet) (images : List (String × CellImage))
    (options : ParseOptions) (floating : List ((Nat × Nat) × List String))
    (startCol endCol rowNum : Nat) : RowData × Nat :=
  let row0 : RowData :=
    { rowNumber := rowNum + 1, height := none, customHeight := none
      cells := [], imageCount := 0, imageCells := [] }
  let row0 :=
    match mapGet ws.rowsMeta rowNum with
    | some hpt =>
      if hpt ≠ 0 then { row0 with height := some hpt, customHeight := some true }
      else row0
    | none => row0
  let st := (natRange startCol endCol).foldl
    (processColumn ws images options floating rowNum) ⟨[], row0, 0⟩
  (st.row, st.total)

/-- The declared `!ref` range with the `'A1:A1'` fallback. -/
def declaredRange (ws : Worksheet) : (Nat × Nat) × (Nat × Nat) :=
  ws.ref.getD ((0, 0), (0, 0))

/-- The range-expansion loop over the binding table's anchor cells:
first scan row (declared start row shrunk to any smaller anchor row). -/
def scanStartRow (ws : Worksheet) (floating : List ((Nat × Nat) × List String)) : Nat :=
  floating.foldl (fun a p => if p.1.1 < a then p.1.1 else a) (declaredRange ws).1.1

/-- First scan column after expansion. -/
def scanStartCol (ws : Worksheet) (floating : List ((Nat × Nat) × List String)) : Nat :=
  floating.foldl (fun a p => if p.1.2 < a then p.1.2 else a) (declaredRange ws).1.2

/-- Last scan row after expansion. -/
def scanEndRow (ws : Worksheet) (floating : List ((Nat × Nat) × List String)) : Nat :=
  floating.foldl (fun a p => if p.1.1 > a then p.1.1 else a) (declaredRange ws).2.1

/-- Last scan column after expansion. -/
def scanEndCol (ws : Worksheet) (floating : List ((Nat × Nat) × List String)) : Nat :=
  floating.foldl (fun a p => if p.1.2 > a then p.1.2 else a) (declaredRange ws).2.2

/-- The body of `parseWorksheet`'s row loop acting on the accumulator
`(rows, totalImages, rowsWithImages)`: count the row, then keep it only
when empty rows are requested or some cell value is non-empty. -/
def sheetStep (ws : Worksheet) (images : List (String × CellImage))
    (options : ParseOptions) (floating : List ((Nat × Nat) × List String))
    (startCol endCol : Nat) (acc : List RowData × Nat × Nat) (rowNum : Nat) :
    List RowData × Nat × Nat :=
  let (rows, total, rwi) := acc
  let (row, delta) := processRow ws images options floating startCol endCol rowNum
  let rwi := if row.imageCount > 0 then rwi + 1 else rwi
  let rows :=
    if options.includeEmptyRows || row.cells.any (fun c => c.value ≠ "") then
      rows ++ [row]
    else rows
  (rows, total + delta, rwi)

/-- `ExcelImageReader.parseWorksheet`.  `floating` is the sheet's binding
table `getSheetFloatingImages(sheetName)`. -/
def parseWorksheet (ws : Worksheet) (sheetName : String)
    (images : List (String × CellImage)) (options : ParseOptions)
    (floating : List ((Nat × Nat) × List String)) : WorksheetData :=
  let range := declaredRange ws
  let columns := parseColumns ws.cols
  let startRow := scanStartRow ws floating
  let startCol := scanStartCol ws floating
  let endRow := scanEndRow ws floating
  let endCol := scanEndCol ws floating
  let out := (natRange startRow endRow).foldl
    (sheetStep ws images options floating startCol endCol) ([], 0, 0)
  { name := sheetName
    dimension := (encodeCell range.1.1 range.1.2, encodeCell range.2.1 range.2.2)
    rows := out.1
    columns := columns
    totalImages := out.2.1
    rowsWithImages := out.2.2 }

/-! ### Spec-side reference functions

These definitions follow the specification's words, not the source; they
exist to be compared with the code's behaviour. -/

/-- Folder names the specification says `normalizeTargetPath` recognizes
for every calling folder. -/
def specRecognizedFolders : List String :=
  ["worksheets/", "drawings/", "media/"]

/-- The calling folder's own prefix. -/
def folderPrefix : Folder → String
  | .worksheets => "worksheets/"
  | .drawings => "drawings/"

/-- The folder prefixes the code actually tests before prefixing, which
depend on the calling folder (the amended form of the claim). -/
def codeRecognizedFolders : Folder → List String
  | .worksheets => ["worksheets/", "drawings/", "media/"]
  | .drawings => ["drawings/", "media/"]

/-- Spec side of the row-count claim: all image ids bound to a row's cells,
floating bindings and resolvable DISPIMG references alike, in left-to-right
scan order. -/
def specRowBoundImageIds (ws : Worksheet) (images : List (String × CellImage))
    (floating : List ((Nat × Nat) × List String)) (cols : List Nat)
    (rowNum : Nat) : List String :=
  cols.flatMap (fun c =>
    ((mapGet floating (rowNum, c)).getD []) ++
    (match extractImageIdFromCell (mapGet ws.cells (rowNum, c)) with
     | some id => if mapHas images id then [id] else []
     | none => []))

/-- The flat floating-id stream of one row in scan order (code-side notion
used by the amended row-count statement). -/
def rowFloatingIds (floating : List ((Nat × Nat) × List String))
    (cols : List Nat) (rowNum : Nat) : List String :=
  cols.flatMap (fun c => (mapGet floating (rowNum, c)).getD [])

/-- Whether the column contributes a named-cell (DISPIMG) hit to the row's
`imageCount`: the cell is visited, looks like an image cell, and its
extracted id resolves in the registry. -/
def dispimgHit (ws : Worksheet) (images : List (String × CellImage))
    (options : ParseOptions) (rowNum c : Nat) : Bool :=
  let cell := mapGet ws.cells (rowNum, c)
  (cell.isSome || options.includeEmptyColumns) && isImageCell cell &&
    (match extractImageIdFromCell cell with
     | some id => mapHas images id
     | none => false)

/-- First-occurrence insertion of a stream of ids into a seen-set list (the
effect of the row loop's `rowSeen` bookkeeping). -/
def seenInsert (s : List String) (ids : List String) : List String :=
  ids.foldl (fun s i => if s.contains i then s else s ++ [i]) s

/-! ### Concrete fixtures for the scenario evaluations -/

/-- A resolved image registered under id `img1`. -/
def img1 : CellImage :=
  ⟨"img1", "", "data:image/png;base64,AAAA", "image/png", ⟨0, 0, 0, 0⟩, "rId1"⟩

/-- An images registry holding exactly `img1`. -/
def imagesFix : List (String × CellImage) := [("img1", img1)]

/-- Scenario-E worksheet: declared dimension `A1:A1`, one non-empty cell
`A1`. -/
def wsScenE : Worksheet :=
  { ref := some ((0, 0), (0, 0))
    cells := [((0, 0), ⟨some (.str "x"), some 's', none, none⟩)]
    rowsMeta := []
    cols := none }

/-- Scenario-E binding table: a floating image anchored at 0-based row 100,
column 0 (cell `A101`). -/
def floatScenE : List ((Nat × Nat) × List String) := [((100, 0), ["img1"])]

/-- A cell whose string value carries a DISPIMG reference to `img1`. -/
def dispimgCell : SheetCell :=
  ⟨some (.str "=DISPIMG(\"img1\",1)"), some 's', none, none⟩

/-- A worksheet whose row 1 holds the same DISPIMG reference in `A1` and
`B1`. -/
def wsTwoDispimg : Worksheet :=
  { ref := some ((0, 0), (0, 1))
    cells := [((0, 0), dispimgCell), ((0, 1), dispimgCell)]
    rowsMeta := []
    cols := none }

/-- Scenario-A worksheet: `B2` referenced by the formula
`=_xlfn.DISPIMG("img1",…)` (cached text in `v`, formula in `f`). -/
def wsScenA : Worksheet :=
  { ref := some ((0, 0), (1, 1))
    cells :=
      [((0, 0), ⟨some (.str "t"), some 's', none, none⟩),
       ((1, 1), ⟨some (.str "=_xlfn.DISPIMG(\"img1\",1)"), none,
                 some "_xlfn.DISPIMG(\"img1\",1)", none⟩)]
    rowsMeta := []
    cols := none }

/-- A worksheet with no declared `!ref` at all. -/
def wsNoRef : Worksheet := { ref := none, cells := [], rowsMeta := [], cols := none }

/-- A successful binary-extraction payload. -/
def extractFix : ImageExtractionResult :=
  ⟨"data:image/png;base64,QUJD", "image/png", [65, 66, 67]⟩

/-- An extractor for which every media path resolves. -/
def extractFnFix : String → Option ImageExtractionResult := fun _ => some extractFix

/-- A cellimages relationship map resolving `rIdN`. -/
def relMapFix : List (String × RelationshipInfo) :=
  [("rIdN", ⟨"rIdN", "http://schemas/image", "media/image1.png", none⟩)]

/-- A named cell image with id `img1`. -/
def namedFix : NamedCellImage := ⟨"img1", "", ⟨0, 0, 0, 0⟩, "rIdN"⟩

/-- A floating image that collides with `namedFix` on id `img1` and
resolves successfully. -/
def annotFix : AnnotatedImage :=
  ⟨⟨"img1", "", "rId1", ⟨0, 0, 0, 0⟩, "A1", 0, 0⟩, .media "media/image2.png"⟩

/-- One sheet carrying the colliding floating image. -/
def sheetsFix : List (String × List AnnotatedImage) := [("Sheet1", [annotFix])]

/-- A drawing relationship map whose single target is external. -/
def drawingRelsExt : List (String × RelationshipInfo) :=
  [("rId1", ⟨"rId1", "http://schemas/image", "http://example.com/x.png",
    some "External"⟩)]

/-- A floating image descriptor hanging off `rId1`. -/
def infoFix : FloatingImageInfo := ⟨"imgX", "", "rId1", ⟨0, 0, 0, 0⟩, "A1", 0, 0⟩

/-- A complete relationship element (all three attributes present). -/
def relElemFix : RelElement :=
  ⟨some "rId1", some "http://schemas/relationships/drawing",
   some "../drawings/drawing1.xml", none⟩

/-- A relationship element missing its `Type` attribute. -/
def relElemBad : RelElement := ⟨some "rId2", none, some "x", none⟩

/-- The id a complete relationship element is keyed by. -/
def relIdOf (e : RelElement) : String := e.relId.getD ""

/-- The record a complete relationship element produces. -/
def relRecordOf (e : RelElement) : RelationshipInfo :=
  ⟨e.relId.getD "", e.relType.getD "", e.relTarget.getD "", e.relTargetMode⟩

end ExcelReader
namespace ExcelReader

theorem mapGet_cons {κ α : Type} [DecidableEq κ] (x : κ × α) (xs : List (κ × α)) (k : κ) :
    mapGet (x :: xs) k = if x.1 = k then some x.2 else mapGet xs k := by
  by_cases h : x.1 = k <;> simp [mapGet, List.find?, h]

theorem mapHas_cons {κ α : Type} [DecidableEq κ] (x : κ × α) (xs : List (κ × α)) (k : κ) :
    mapHas (x :: xs) k = (decide (x.1 = k) || mapHas xs k) := by
  simp [mapHas]

theorem mapGet_nil {κ α : Type} [DecidableEq κ] (k : κ) :
    mapGet ([] : List (κ × α)) k = none := rfl

theorem mapGet_append {κ α : Type} [DecidableEq κ] (xs ys : List (κ × α)) (k : κ) :
    mapGet (xs ++ ys) k = if (mapGet xs k).isSome then mapGet xs k else mapGet ys k := by
  induction xs with
  | nil => simp [mapGet_nil]
  | cons x xs ih =>
    by_cases h : x.1 = k
    · simp [mapGet_cons, h]
    · simp only [List.cons_append, mapGet_cons, if_neg h, ih]

theorem mapHas_eq_isSome {κ α : Type} [DecidableEq κ] (m : List (κ × α)) (k : κ) :
    mapHas m k = (mapGet m k).isSome := by
  induction m with
  | nil => rfl
  | cons p t ih =>
    by_cases hp : p.1 = k
    · simp [mapHas_cons, mapGet_cons, hp]
    · simp [mapHas_cons, mapGet_cons, hp, ih]

theorem mapGet_replace_ne {κ α : Type} [DecidableEq κ] (m : List (κ × α)) (k k' : κ) (v : α)
    (h : k' ≠ k) :
    mapGet (m.map (fun p => if p.1 = k then (k, v) else p)) k' = mapGet m k' := by
  induction m with
  | nil => rfl
  | cons p t ih =>
    rw [List.map_cons, mapGet_cons, mapGet_cons]
    by_cases hp : p.1 = k
    · rw [if_pos hp]
      simp only [hp]
      simp [Ne.symm h, ih]
    · rw [if_neg hp]
      by_cases hp' : p.1 = k'
      · simp [hp']
      · simp [hp', ih]

theorem mapGet_replace_self {κ α : Type} [DecidableEq κ] (m : List (κ × α)) (k : κ) (v : α)
    (h : mapHas m k = true) :
    mapGet (m.map (fun p => if p.1 = k then (k, v) else p)) k = some v := by
  induction m with
  | nil => simp [mapHas] at h
  | cons p t ih =>
    rw [List.map_cons, mapGet_cons]
    by_cases hp : p.1 = k
    · rw [if_pos hp]; simp
    · rw [if_neg hp, if_neg hp]
      have ht : mapHas t k = true := by
        have := mapHas_cons p t k
        rw [h] at this
        simpa [hp] using this.symm
      exact ih ht

theorem mapGet_mapSet_self {κ α : Type} [DecidableEq κ] (m : List (κ × α)) (k : κ) (v : α) :
    mapGet (mapSet m k v) k = some v := by
  unfold mapSet
  by_cases h : mapHas m k
  · simpa [h] using mapGet_replace_self m k v h
  · rw [if_neg h, mapGet_append]
    have hnone : mapGet m k = none := by
      have := mapHas_eq_isSome m k
      rw [eq_false_of_ne_true h] at this
      exact Option.not_isSome_iff_eq_none.mp (by simp [← this])
    simp [hnone, mapGet_cons]

theorem mapGet_mapSet_ne {κ α : Type} [DecidableEq κ] (m : List (κ × α)) (k k' : κ) (v : α)
    (h : k' ≠ k) : mapGet (mapSet m k v) k' = mapGet m k' := by
  unfold mapSet
  by_cases hh : mapHas m k
  · simpa [hh] using mapGet_replace_ne m k k' v h
  · rw [if_neg hh, mapGet_append]
    by_cases hs : (mapGet m k').isSome
    · simp [hs]
    · simp only [hs, if_false]
      rw [mapGet_cons]
      simp only [Ne.symm h, if_false]
      simp only [Option.not_isSome_iff_eq_none.mp (by simpa using hs)]
      rfl

theorem keys_replace {κ α : Type} [DecidableEq κ] (m : List (κ × α)) (k : κ) (v : α) :
    (m.map (fun p => if p.1 = k then (k, v) else p)).map Prod.fst = m.map Prod.fst := by
  induction m with
  | nil => rfl
  | cons p t ih =>
    simp only [List.map_cons, ih]
    by_cases hp : p.1 = k
    · simp [hp]
    · simp [hp]

theorem keys_mapSet {κ α : Type} [DecidableEq κ] (m : List (κ × α)) (k : κ) (v : α) :
    (mapSet m k v).map Prod.fst =
      if mapHas m k then m.map Prod.fst else m.map Prod.fst ++ [k] := by
  unfold mapSet
  by_cases h : mapHas m k
  · rw [if_pos h, if_pos h]
    exact keys_replace m k v
  · simp [h]

theorem nodup_keys_mapSet {κ α : Type} [DecidableEq κ] (m : List (κ × α)) (k : κ) (v : α)
    (h : (m.map Prod.fst).Nodup) : ((mapSet m k v).map Prod.fst).Nodup := by
  rw [keys_mapSet]
  by_cases hh : mapHas m k
  · simpa [hh] using h
  · have hk : k ∉ m.map Prod.fst := by
      intro hmem
      rcases List.mem_map.mp hmem with ⟨p, hp, hfst⟩
      have : mapHas m k = true := by
        simp only [mapHas, List.any_eq_true]
        exact ⟨p, hp, by simpa using hfst⟩
      simp [this] at hh
    simp [hh, List.nodup_append, h, hk]

end ExcelReader

namespace ExcelReader

/-! ### Claim theorems: dimension (C10) and path normalization (C6) -/

/-- C10: the reported worksheet `dimension` always equals the sheet's
originally declared `!ref` range (defaulting to `A1:A1` when none is
declared).  It is the same for every floating-image binding table, so the
internal scan-range expansion never enlarges the reported dimension. -/
theorem dimension_equals_declared_range (ws : Worksheet) (sheetName : String)
    (images : List (String × CellImage)) (options : ParseOptions)
    (floating : List ((Nat × Nat) × List String)) :
    (parseWorksheet ws sheetName images options floating).dimension =
      (encodeCell (declaredRange ws).1.1 (declaredRange ws).1.2,
       encodeCell (declaredRange ws).2.1 (declaredRange ws).2.2) ∧
    (ws.ref = none →
      (parseWorksheet ws sheetName images options floating).dimension = ("A1", "A1")) := by
  refine ⟨rfl, fun h => ?_⟩
  have hd : declaredRange ws = ((0, 0), (0, 0)) := by simp [declaredRange, h]
  show (encodeCell (declaredRange ws).1.1 (declaredRange ws).1.2,
        encodeCell (declaredRange ws).2.1 (declaredRange ws).2.2) = ("A1", "A1")
  rw [hd]
  decide

/-- Witness for C10 at a concrete refless worksheet with an out-of-range
floating anchor. -/
theorem dimension_equals_declared_range_witness :
    (parseWorksheet wsNoRef "S" [] {} floatScenE).dimension = ("A1", "A1") :=
  (dimension_equals_declared_range wsNoRef "S" [] {} floatScenE).2 rfl

/-- C6 counterexample: seen from the `drawings` folder, the target
`worksheets/sheet1.xml` starts with the recognized folder name
`worksheets/`, yet it is not returned unchanged — the code prefixes it with
`drawings/`, contradicting the claim as stated. -/
theorem normalizeTargetPath_claim_cex :
    "worksheets/" ∈ specRecognizedFolders ∧
    strStartsWith "worksheets/sheet1.xml" "worksheets/" = true ∧
    normalizeTargetPath Folder.drawings "worksheets/sheet1.xml" ≠ "worksheets/sheet1.xml" ∧
    normalizeTargetPath Folder.drawings "worksheets/sheet1.xml" =
      "drawings/worksheets/sheet1.xml" := by
  refine ⟨by decide, by decide, by decide, by decide⟩

/-- C6 amended: `../` and leading-`/` stripping are as claimed, but the set
of folder prefixes recognized before prefixing depends on the calling
folder — `worksheets/`, `drawings/`, `media/` when called from
`worksheets`, and only `drawings/`, `media/` when called from `drawings`. -/
theorem normalizeTargetPath_folder_rules (f : Folder) (t : String) :
    (strStartsWith t "../" = true → normalizeTargetPath f t = dropDotDotSlash t) ∧
    (strStartsWith t "../" = false → strStartsWith t "/" = true →
      normalizeTargetPath f t = dropLeadingSlashes t) ∧
    (strStartsWith t "../" = false → strStartsWith t "/" = false →
      ((codeRecognizedFolders f).any (fun p => strStartsWith t p) = true →
        normalizeTargetPath f t = t) ∧
      ((codeRecognizedFolders f).any (fun p => strStartsWith t p) = false →
        normalizeTargetPath f t = folderPrefix f ++ t)) := by
  cases f
  case worksheets =>
    refine ⟨fun h1 => by simp [normalizeTargetPath, h1],
            fun h1 h2 => by simp [normalizeTargetPath, h1, h2],
            fun h1 h2 => ⟨fun h3 => ?_, fun h3 => ?_⟩⟩
    · simp only [codeRecognizedFolders, List.any_cons, List.any_nil, Bool.or_false,
        Bool.or_eq_true] at h3
      rcases h3 with ha | ha | ha
      all_goals simp [normalizeTargetPath, h1, h2, ha]
    · simp only [codeRecognizedFolders, List.any_cons, List.any_nil, Bool.or_false,
        Bool.or_eq_false_iff] at h3
      obtain ⟨ha, hb, hc⟩ := h3
      simp [normalizeTargetPath, folderPrefix, h1, h2, ha, hb, hc]
  case drawings =>
    refine ⟨fun h1 => by simp [normalizeTargetPath, h1],
            fun h1 h2 => by simp [normalizeTargetPath, h1, h2],
            fun h1 h2 => ⟨fun h3 => ?_, fun h3 => ?_⟩⟩
    · simp only [codeRecognizedFolders, List.any_cons, List.any_nil, Bool.or_false,
        Bool.or_eq_true] at h3
      rcases h3 with ha | ha
      all_goals simp [normalizeTargetPath, h1, h2, ha]
    · simp only [codeRecognizedFolders, List.any_cons, List.any_nil, Bool.or_false,
        Bool.or_eq_false_iff] at h3
      obtain ⟨ha, hb⟩ := h3
      simp [normalizeTargetPath, folderPrefix, h1, h2, ha, hb]

/-- Witness for the amended C6 at concrete targets from both folders. -/
theorem normalizeTargetPath_folder_rules_witness :
    normalizeTargetPath Folder.worksheets "abc.xml" = "worksheets/" ++ "abc.xml" ∧
    normalizeTargetPath Folder.drawings "../media/image1.png" =
      dropDotDotSlash "../media/image1.png" :=
  ⟨((normalizeTargetPath_folder_rules Folder.worksheets "abc.xml").2.2 (by decide)
      (by decide)).2 (by decide),
   (normalizeTargetPath_folder_rules Folder.drawings "../media/image1.png").1 (by decide)⟩

end ExcelReader
namespace ExcelReader

theorem mapHas_mapSet_mono {κ α : Type} [DecidableEq κ] (m : List (κ × α)) (k k' : κ) (v : α)
    (h : mapHas m k = true) : mapHas (mapSet m k' v) k = true := by
  rw [mapHas_eq_isSome] at h ⊢
  by_cases hk : k = k'
  · subst hk; simp [mapGet_mapSet_self]
  · rw [mapGet_mapSet_ne _ _ _ _ hk]; exact h

theorem relStep_of_not_complete (m : List (String × RelationshipInfo)) (e : RelElement)
    (h : relComplete e = false) : relStep m e = m := by
  rcases e with ⟨i, t, g, tm⟩
  cases i <;> cases t <;> cases g <;>
    simp_all [relStep, relComplete, attrTruthy]

theorem relStep_of_complete (m : List (String × RelationshipInfo)) (e : RelElement)
    (h : relComplete e = true) : relStep m e = mapSet m (relIdOf e) (relRecordOf e) := by
  rcases e with ⟨i, t, g, tm⟩
  cases i <;> cases t <;> cases g <;>
    simp_all [relStep, relComplete, attrTruthy, relIdOf, relRecordOf]

theorem foldl_relStep_filter (l : List RelElement) (m : List (String × RelationshipInfo)) :
    l.foldl relStep m = (l.filter relComplete).foldl relStep m := by
  induction l generalizing m with
  | nil => rfl
  | cons a l ih =>
    by_cases h : relComplete a = true
    · simp [List.filter_cons, h, List.foldl_cons, ih]
    · have h' : relComplete a = false := by simpa using h
      simp [List.filter_cons, h', List.foldl_cons, relStep_of_not_complete m a h', ih]

theorem foldl_relStep_has (l : List RelElement) (m : List (String × RelationshipInfo))
    (k : String) (h : mapHas m k = true) : mapHas (l.foldl relStep m) k = true := by
  induction l generalizing m with
  | nil => exact h
  | cons a l ih =>
    rw [List.foldl_cons]
    apply ih
    by_cases hc : relComplete a = true
    · rw [relStep_of_complete m a hc]
      exact mapHas_mapSet_mono _ _ _ _ h
    · rw [relStep_of_not_complete m a (by simpa using hc)]
      exact h

theorem foldl_relStep_mem_has (l : List RelElement) (m : List (String × RelationshipInfo))
    (e : RelElement) (he : e ∈ l) (hc : relComplete e = true) :
    mapHas (l.foldl relStep m) (relIdOf e) = true := by
  induction l generalizing m with
  | nil => cases he
  | cons a l ih =>
    rw [List.foldl_cons]
    rcases List.mem_cons.mp he with rfl | hmem
    · apply foldl_relStep_has
      rw [relStep_of_complete m e hc, mapHas_eq_isSome, mapGet_mapSet_self]
      rfl
    · exact ih _ hmem

theorem foldl_relStep_nodup (l : List RelElement) (m : List (String × RelationshipInfo))
    (h : (m.map Prod.fst).Nodup) : ((l.foldl relStep m).map Prod.fst).Nodup := by
  induction l generalizing m with
  | nil => exact h
  | cons a l ih =>
    rw [List.foldl_cons]
    apply ih
    by_cases hc : relComplete a = true
    · rw [relStep_of_complete m a hc]
      exact nodup_keys_mapSet _ _ _ h
    · rw [relStep_of_not_complete m a (by simpa using hc)]
      exact h

theorem foldl_relStep_get_preserved (l : List RelElement)
    (m : List (String × RelationshipInfo)) (k : String)
    (h : ∀ e ∈ l, ¬(relComplete e = true ∧ relIdOf e = k)) :
    mapGet (l.foldl relStep m) k = mapGet m k := by
  induction l generalizing m with
  | nil => rfl
  | cons a l ih =>
    rw [List.foldl_cons]
    rw [ih _ (fun e he => h e (List.mem_cons_of_mem a he))]
    by_cases hc : relComplete a = true
    · rw [relStep_of_complete m a hc]
      have hne : k ≠ relIdOf a := by
        intro hk
        exact h a (List.mem_cons_self a l) ⟨hc, hk.symm⟩
      exact mapGet_mapSet_ne _ _ _ _ hne
    · rw [relStep_of_not_complete m a (by simpa using hc)]

theorem foldl_relStep_get_last (l : List RelElement)
    (m : List (String × RelationshipInfo)) (e : RelElement)
    (he : e ∈ l) (hc : relComplete e = true)
    (hnd : ((l.filter relComplete).map relIdOf).Nodup) :
    mapGet (l.foldl relStep m) (relIdOf e) = some (relRecordOf e) := by
  induction l generalizing m with
  | nil => cases he
  | cons a l ih =>
    rw [List.foldl_cons]
    by_cases hca : relComplete a = true
    · simp only [List.filter_cons, hca, if_true, List.map_cons, List.nodup_cons] at hnd
      obtain ⟨hnotmem, hndtail⟩ := hnd
      rcases List.mem_cons.mp he with rfl | hmem
      · have hpres : ∀ e' ∈ l, ¬(relComplete e' = true ∧ relIdOf e' = relIdOf e) := by
          intro e' he' h'
          exact hnotmem (List.mem_map.mpr ⟨e', List.mem_filter.mpr ⟨he', h'.1⟩, h'.2⟩)
        rw [foldl_relStep_get_preserved l _ _ hpres, relStep_of_complete m e hca,
          mapGet_mapSet_self]
      · exact ih _ hmem hndtail
    · have hca' : relComplete a = false := by simpa using hca
      simp only [List.filter_cons, hca'] at hnd
      rcases List.mem_cons.mp he with rfl | hmem
      · exact absurd hc (by simp [hca'])
      · rw [relStep_of_not_complete m a hca']
        exact ih _ hmem (by simpa using hnd)

end ExcelReader

namespace ExcelReader

/-- C8: `parseRelationships` is total (malformed input yields the empty
map), elements missing `Id`, `Type` or `Target` contribute nothing, every
complete `Relationship` element's id is a key of the resulting map, keys
are unique, and — when the complete elements' ids are pairwise distinct —
each complete element's id maps to exactly its own record. -/
theorem parseRelationships_spec :
    parseRelationships none = [] ∧
    (∀ list, parseRelationships (some list) =
      parseRelationships (some (list.filter relComplete))) ∧
    (∀ list e, e ∈ list → relComplete e = true →
      mapHas (parseRelationships (some list)) (relIdOf e) = true) ∧
    (∀ list, ((parseRelationships (some list)).map Prod.fst).Nodup) ∧
    (∀ list e, e ∈ list → relComplete e = true →
      ((list.filter relComplete).map relIdOf).Nodup →
      mapGet (parseRelationships (some list)) (relIdOf e) = some (relRecordOf e)) := by
  refine ⟨rfl, fun list => ?_, fun list e he hc => ?_, fun list => ?_,
    fun list e he hc hnd => ?_⟩
  · exact foldl_relStep_filter list []
  · exact foldl_relStep_mem_has list [] e he hc
  · exact foldl_relStep_nodup list [] (by simp)
  · exact foldl_relStep_get_last list [] e he hc hnd

/-- Witness for C8 at a concrete two-element relationship document. -/
theorem parseRelationships_spec_witness :
    mapGet (parseRelationships (some [relElemFix, relElemBad])) (relIdOf relElemFix) =
      some (relRecordOf relElemFix) ∧
    parseRelationships none = [] :=
  ⟨parseRelationships_spec.2.2.2.2 [relElemFix, relElemBad] relElemFix (by decide)
      (by decide) (by decide),
   parseRelationships_spec.1⟩

end ExcelReader
namespace ExcelReader

theorem processFloatingImage_get_preserve (extract : String → Option ImageExtractionResult)
    (sheetName : String) (st : PipelineState) (d : AnnotatedImage) (id : String)
    (v : CellImage) (h : mapGet st.images id = some v) :
    mapGet (processFloatingImage extract sheetName st d).images id = some v := by
  unfold processFloatingImage
  cases d.annot with
  | skip reason => exact h
  | media path =>
    dsimp only
    by_cases hp : path = ""
    · simp only [hp, if_pos rfl]; exact h
    · rw [if_neg hp]
      cases hx : extract path with
      | none => exact h
      | some r =>
        simp only
        by_cases hh : mapHas st.images d.info.id
        · rw [if_pos hh]; exact h
        · rw [if_neg hh]
          by_cases hid : id = d.info.id
          · subst hid
            rw [mapHas_eq_isSome, h] at hh
            simp at hh
          · rw [mapGet_mapSet_ne _ _ _ _ hid]
            exact h

theorem processSheetImages_get_preserve (extract : String → Option ImageExtractionResult)
    (sheetName : String) (ds : List AnnotatedImage) (st : PipelineState) (id : String)
    (v : CellImage) (h : mapGet st.images id = some v) :
    mapGet (processSheetImages extract sheetName st ds).images id = some v := by
  induction ds generalizing st with
  | nil => exact h
  | cons d ds ih =>
    exact ih _ (processFloatingImage_get_preserve extract sheetName st d id v h)

theorem parseFloatingImagesPhase_get_preserve
    (extract : String → Option ImageExtractionResult)
    (sheets : List (String × List AnnotatedImage)) (st : PipelineState) (id : String)
    (v : CellImage) (h : mapGet st.images id = some v) :
    mapGet (parseFloatingImagesPhase extract sheets st).images id = some v := by
  induction sheets generalizing st with
  | nil => exact h
  | cons s sheets ih =>
    exact ih _ (processSheetImages_get_preserve extract s.1 s.2 st id v h)

theorem processFloatingImage_nodup (extract : String → Option ImageExtractionResult)
    (sheetName : String) (st : PipelineState) (d : AnnotatedImage)
    (h : (st.images.map Prod.fst).Nodup) :
    ((processFloatingImage extract sheetName st d).images.map Prod.fst).Nodup := by
  unfold processFloatingImage
  cases d.annot with
  | skip reason => exact h
  | media path =>
    dsimp only
    by_cases hp : path = ""
    · simp only [hp, if_pos rfl]; exact h
    · rw [if_neg hp]
      cases hx : extract path with
      | none => exact h
      | some r =>
        simp only
        by_cases hh : mapHas st.images d.info.id
        · rw [if_pos hh]; exact h
        · rw [if_neg hh]
          exact nodup_keys_mapSet _ _ _ h

theorem processSheetImages_nodup (extract : String → Option ImageExtractionResult)
    (sheetName : String) (ds : List AnnotatedImage) (st : PipelineState)
    (h : (st.images.map Prod.fst).Nodup) :
    ((processSheetImages extract sheetName st ds).images.map Prod.fst).Nodup := by
  induction ds generalizing st with
  | nil => exact h
  | cons d ds ih =>
    exact ih _ (processFloatingImage_nodup extract sheetName st d h)

theorem parseFloatingImagesPhase_nodup (extract : String → Option ImageExtractionResult)
    (sheets : List (String × List AnnotatedImage)) (st : PipelineState)
    (h : (st.images.map Prod.fst).Nodup) :
    ((parseFloatingImagesPhase extract sheets st).images.map Prod.fst).Nodup := by
  induction sheets generalizing st with
  | nil => exact h
  | cons s sheets ih =>
    exact ih _ (processSheetImages_nodup extract s.1 s.2 st h)

theorem parseCellImagesPhase_nodup (extract : String → Option ImageExtractionResult)
    (relMap : List (String × RelationshipInfo)) (named : List NamedCellImage)
    (st : PipelineState) (h : (st.images.map Prod.fst).Nodup) :
    ((parseCellImagesPhase extract relMap named st).images.map Prod.fst).Nodup := by
  induction named generalizing st with
  | nil => exact h
  | cons ci named ih =>
    show ((parseCellImagesPhase extract relMap named _).images.map Prod.fst).Nodup
    apply ih
    cases hr : mapGet relMap ci.relationshipId with
    | none => simpa [hr] using h
    | some rel =>
      cases hx : extract rel.target with
      | none => simpa [hr, hx] using h
      | some r => simpa [hr, hx] using nodup_keys_mapSet st.images ci.id _ h

/-- C4: image ids are unique in the final registry, and once the
named-cell phase has registered an entry for an id, the floating phase
never overwrites it — a floating image that collides with an existing id
leaves the registered entry intact (first-registered wins). -/
theorem image_registry_first_wins (extract : String → Option ImageExtractionResult)
    (relMap : List (String × RelationshipInfo)) (named : List NamedCellImage)
    (sheets : List (String × List AnnotatedImage)) :
    (((extractImagesPipeline extract relMap named sheets).images.map Prod.fst).Nodup) ∧
    (∀ id v,
      mapGet (parseCellImagesPhase extract relMap named ⟨[], [], []⟩).images id = some v →
      mapGet (extractImagesPipeline extract relMap named sheets).images id = some v) := by
  constructor
  · exact parseFloatingImagesPhase_nodup extract sheets _
      (parseCellImagesPhase_nodup extract relMap named ⟨[], [], []⟩ (by simp))
  · intro id v h
    exact parseFloatingImagesPhase_get_preserve extract sheets _ id v h

/-- Witness for C4: a floating image colliding on id `img1` with a
named-cell image leaves the named-cell entry in the final registry. -/
theorem image_registry_first_wins_witness :
    mapGet (extractImagesPipeline extractFnFix relMapFix [namedFix] sheetsFix).images
      "img1" = some (createCellImage "img1" "" "rIdN" ⟨0, 0, 0, 0⟩ extractFix) :=
  (image_registry_first_wins extractFnFix relMapFix [namedFix] sheetsFix).2 "img1" _
    (by decide)

end ExcelReader
namespace ExcelReader

theorem processFloatingImage_proj (extract : String → Option ImageExtractionResult)
    (sheetName : String) (d : AnnotatedImage) (st st' : PipelineState)
    (h1 : st.images = st'.images) (h2 : st.bindings = st'.bindings) :
    (processFloatingImage extract sheetName st d).images =
      (processFloatingImage extract sheetName st' d).images ∧
    (processFloatingImage extract sheetName st d).bindings =
      (processFloatingImage extract sheetName st' d).bindings := by
  unfold processFloatingImage
  cases d.annot with
  | skip reason => exact ⟨h1, h2⟩
  | media path =>
    dsimp only
    by_cases hp : path = ""
    · rw [if_pos hp, if_pos hp]; exact ⟨h1, h2⟩
    · rw [if_neg hp, if_neg hp]
      cases hx : extract path with
      | none => exact ⟨h1, h2⟩
      | some r => exact ⟨by rw [h1], by rw [h2]⟩

theorem processSheetImages_proj (extract : String → Option ImageExtractionResult)
    (sheetName : String) (ds : List AnnotatedImage) (st st' : PipelineState)
    (h1 : st.images = st'.images) (h2 : st.bindings = st'.bindings) :
    (processSheetImages extract sheetName st ds).images =
      (processSheetImages extract sheetName st' ds).images ∧
    (processSheetImages extract sheetName st ds).bindings =
      (processSheetImages extract sheetName st' ds).bindings := by
  induction ds generalizing st st' with
  | nil => exact ⟨h1, h2⟩
  | cons d ds ih =>
    obtain ⟨g1, g2⟩ := processFloatingImage_proj extract sheetName d st st' h1 h2
    exact ih _ _ g1 g2

/-- C5: a floating image whose drawing-level relationship carries
`TargetMode="External"` is annotated as an `external` skip; processing it
appends exactly the `[skip] reason=external …` diagnostic, leaves the image
registry and binding table untouched, never invokes the binary extractor
(the step's outcome is identical for every extractor), and the remaining
images of the sheet are still processed as if the external one were
absent (up to the diagnostic). -/
theorem external_floating_image_skipped
    (extract extract' : String → Option ImageExtractionResult)
    (drawingRels : List (String × RelationshipInfo)) (info : FloatingImageInfo)
    (rel : RelationshipInfo) (sheetName : String) (st : PipelineState)
    (pre post : List AnnotatedImage)
    (h1 : mapGet drawingRels info.relationshipId = some rel)
    (h2 : attrTruthy rel.targetMode = true)
    (h3 : strToLower (rel.targetMode.getD "") = "external") :
    annotateFloatingImage drawingRels info = ⟨info, .skip "external"⟩ ∧
    processFloatingImage extract sheetName st (annotateFloatingImage drawingRels info) =
      { st with errors := st.errors ++
          ["[skip] reason=external id=" ++ info.id ++ " sheet=" ++ sheetName ++
            " cell=" ++ info.cellRef] } ∧
    (processFloatingImage extract sheetName st (annotateFloatingImage drawingRels info)).images
      = st.images ∧
    processFloatingImage extract sheetName st (annotateFloatingImage drawingRels info) =
      processFloatingImage extract' sheetName st (annotateFloatingImage drawingRels info) ∧
    (processSheetImages extract sheetName st
        (pre ++ annotateFloatingImage drawingRels info :: post)).images =
      (processSheetImages extract sheetName st (pre ++ post)).images := by
  have hann : annotateFloatingImage drawingRels info = ⟨info, .skip "external"⟩ := by
    unfold annotateFloatingImage
    rw [h1]
    dsimp only
    rw [if_pos ⟨h2, h3⟩]
  refine ⟨hann, ?_, ?_, ?_, ?_⟩
  · rw [hann]; rfl
  · rw [hann]; rfl
  · rw [hann]; rfl
  · rw [hann]
    unfold processSheetImages
    rw [List.foldl_append, List.foldl_append, List.foldl_cons]
    have hmid : (List.foldl (processFloatingImage extract sheetName)
        (processFloatingImage extract sheetName
          (List.foldl (processFloatingImage extract sheetName) st pre)
          ⟨info, .skip "external"⟩) post).images =
      (List.foldl (processFloatingImage extract sheetName)
        (List.foldl (processFloatingImage extract sheetName) st pre) post).images := by
      have := processSheetImages_proj extract sheetName post
        (processFloatingImage extract sheetName
          (List.foldl (processFloatingImage extract sheetName) st pre)
          ⟨info, .skip "external"⟩)
        (List.foldl (processFloatingImage extract sheetName) st pre) rfl rfl
      exact this.1
    exact hmid

end ExcelReader

namespace ExcelReader

/-- Witness for C5 at a concrete external drawing relationship. -/
theorem external_floating_image_skipped_witness :
    (processFloatingImage extractFnFix "Sheet1" ⟨[], [], []⟩
        (annotateFloatingImage drawingRelsExt infoFix)).errors =
      ["[skip] reason=external id=imgX sheet=Sheet1 cell=A1"] ∧
    (processFloatingImage extractFnFix "Sheet1" ⟨[], [], []⟩
        (annotateFloatingImage drawingRelsExt infoFix)).images = [] := by
  have h := external_floating_image_skipped extractFnFix (fun _ => none) drawingRelsExt
    infoFix ⟨"rId1", "http://schemas/image", "http://example.com/x.png", some "External"⟩
    "Sheet1" ⟨[], [], []⟩ [] [] (by decide) (by decide) (by decide)
  refine ⟨?_, h.2.2.1⟩
  rw [h.2.1]
  decide

end ExcelReader
namespace ExcelReader

theorem deriveImageId_priority (name idAttr : Option String) (relId cellRef : String) :
    (strTrim (name.getD "") ≠ "" → deriveImageId name idAttr relId cellRef = strTrim (name.getD "")) ∧
    (strTrim (name.getD "") = "" → strTrim (idAttr.getD "") ≠ "" →
      deriveImageId name idAttr relId cellRef = strTrim (idAttr.getD "")) ∧
    (strTrim (name.getD "") = "" → strTrim (idAttr.getD "") = "" → strTrim relId ≠ "" →
      deriveImageId name idAttr relId cellRef = strTrim relId) ∧
    (strTrim (name.getD "") = "" → strTrim (idAttr.getD "") = "" → strTrim relId = "" →
      deriveImageId name idAttr relId cellRef = "floating_" ++ cellRef) := by
  have hempty : strTrim "" = "" := rfl
  refine ⟨fun h1 => ?_, fun h1 h2 => ?_, fun h1 h2 h3 => ?_, fun h1 h2 h3 => ?_⟩ <;>
    cases name <;> cases idAttr <;>
      simp_all [deriveImageId, hempty]

/-- C7: a descriptor produced by `parseDrawingXml` gets its id by strict
priority — trimmed non-blank explicit name, else trimmed non-blank explicit
id attribute, else trimmed non-blank relationship id, else the synthesized
`floating_<cellRef>` fallback, used only when all the preceding candidates
are blank or absent; and every descriptor of `parseDrawingXml` arises from
`extractImageFromAnchor` on some (alternate-content-unwrapped) anchor. -/
theorem floating_image_id_priority :
    (∀ (a : Anchor) (p : PicData) (info : FloatingImageInfo),
      a.pic = some p → extractImageFromAnchor a = some info →
      info.relationshipId = p.embed.getD "" ∧
      (strTrim (p.name.getD "") ≠ "" → info.id = strTrim (p.name.getD "")) ∧
      (strTrim (p.name.getD "") = "" → strTrim (p.idAttr.getD "") ≠ "" →
        info.id = strTrim (p.idAttr.getD "")) ∧
      (strTrim (p.name.getD "") = "" → strTrim (p.idAttr.getD "") = "" →
        strTrim info.relationshipId ≠ "" → info.id = strTrim info.relationshipId) ∧
      (strTrim (p.name.getD "") = "" → strTrim (p.idAttr.getD "") = "" →
        strTrim info.relationshipId = "" → info.id = "floating_" ++ info.cellRef)) ∧
    (∀ (twoCell oneCell : List Anchor) (info : FloatingImageInfo),
      info ∈ parseDrawingXml twoCell oneCell →
      ∃ a, extractImageFromAnchor a = some info) := by
  constructor
  · intro a p info hp h
    unfold extractImageFromAnchor at h
    rw [hp] at h
    dsimp only at h
    by_cases hrel : p.embed.getD "" = ""
    · rw [if_pos hrel] at h; cases h
    · rw [if_neg hrel] at h
      cases hr : a.fromRow with
      | none => rw [hr] at h; cases h
      | some r =>
        cases hc : a.fromCol with
        | none => rw [hr, hc] at h; cases h
        | some c =>
          rw [hr, hc] at h
          dsimp only at h
          have hinfo := (Option.some.injEq _ _).mp h
          subst hinfo
          refine ⟨rfl, ?_⟩
          exact ⟨(deriveImageId_priority p.name p.idAttr (p.embed.getD "")
              (encodeCell r c)).1,
            (deriveImageId_priority p.name p.idAttr (p.embed.getD "")
              (encodeCell r c)).2.1,
            (deriveImageId_priority p.name p.idAttr (p.embed.getD "")
              (encodeCell r c)).2.2.1,
            (deriveImageId_priority p.name p.idAttr (p.embed.getD "")
              (encodeCell r c)).2.2.2⟩
  · intro twoCell oneCell info hmem
    unfold parseDrawingXml at hmem
    rcases List.mem_filterMap.mp hmem with ⟨a, _, ha⟩
    exact ⟨a, ha⟩

/-- Witness for C7: an anchor whose name is blank and whose id attribute is
`"3"` derives id `"3"`. -/
theorem floating_image_id_priority_witness :
    (⟨"3", "", "rId7", ⟨0, 0, 0, 0⟩, "A1", 0, 0⟩ : FloatingImageInfo).id =
      strTrim ((some "3" : Option String).getD "") :=
  (floating_image_id_priority.1
      ⟨some ⟨some "  ", some "3", none, some "rId7", none, none, none, none⟩,
        none, some 0, some 0⟩
      ⟨some "  ", some "3", none, some "rId7", none, none, none, none⟩
      ⟨"3", "", "rId7", ⟨0, 0, 0, 0⟩, "A1", 0, 0⟩ rfl (by decide)).2.2.1
    (by decide) (by decide)

end ExcelReader
namespace ExcelReader

theorem applyDispimg_resolved (cd : CellData) (text : String)
    (images : List (String × CellImage)) (imageId : String) (img : CellImage)
    (h1 : extractDispimgId text = some imageId) (h2 : mapGet images imageId = some img) :
    (applyDispimg cd text images).type = "image" ∧
    (applyDispimg cd text images).image = some img := by
  unfold applyDispimg
  rw [h1]
  dsimp only
  rw [h2]
  exact ⟨rfl, rfl⟩

/-- C9: a cell whose string value (or, failing that, whose formula text)
contains a DISPIMG reference has its type forced to `image`, and when the
extracted id resolves in the registry the resolved image is attached —
overriding the type the value/formula would otherwise imply.  Concretely
(Scenario A), a sheet with `=_xlfn.DISPIMG("img1",…)` in `B2` and `img1`
registered yields a `B2` cell of type `image` carrying `img1`. -/
theorem parseCell_dispimg_override :
    (∀ (c : SheetCell) (cellRef : String) (images : List (String × CellImage))
        (s imageId : String) (img : CellImage),
      c.v = some (.str s) → strContains s "DISPIMG" = true →
      extractDispimgId s = some imageId → mapGet images imageId = some img →
      (parseCell (some c) cellRef images).type = "image" ∧
      (parseCell (some c) cellRef images).image = some img) ∧
    (∀ (c : SheetCell) (cellRef : String) (images : List (String × CellImage))
        (f imageId : String) (img : CellImage),
      (∀ s, c.v = some (.str s) → strContains s "DISPIMG" = false) →
      c.f = some f → f ≠ "" → strContains f "DISPIMG" = true →
      extractDispimgId f = some imageId → mapGet images imageId = some img →
      (parseCell (some c) cellRef images).type = "image" ∧
      (parseCell (some c) cellRef images).image = some img) ∧
    ((parseWorksheet wsScenA "S" imagesFix {} []).rows.any (fun r =>
      r.cells.any (fun cd => cd.ref = "B2" && cd.type = "image" &&
        cd.image.map (·.id) = some "img1")) = true) ∧
    mapHas imagesFix "img1" = true := by
  refine ⟨?_, ?_, by decide, by decide⟩
  · intro c cellRef images s imageId img hv hs hx hg
    unfold parseCell
    dsimp only
    rw [hv]
    dsimp only
    rw [if_pos hs]
    exact applyDispimg_resolved _ s images imageId img hx hg
  · intro c cellRef images f imageId img hv hf hfne hfc hx hg
    unfold parseCell
    dsimp only
    cases hcv : c.v with
    | none =>
      dsimp only
      rw [hf]
      dsimp only
      rw [if_pos ⟨hfne, hfc⟩]
      exact applyDispimg_resolved _ f images imageId img hx hg
    | some jv =>
      cases jv with
      | str s =>
        dsimp only
        rw [if_neg (by simp [hv s hcv])]
        rw [hf]
        dsimp only
        rw [if_pos ⟨hfne, hfc⟩]
        exact applyDispimg_resolved _ f images imageId img hx hg
      | num n =>
        dsimp only
        rw [hf]
        dsimp only
        rw [if_pos ⟨hfne, hfc⟩]
        exact applyDispimg_resolved _ f images imageId img hx hg
      | boolean b =>
        dsimp only
        rw [hf]
        dsimp only
        rw [if_pos ⟨hfne, hfc⟩]
        exact applyDispimg_resolved _ f images imageId img hx hg

/-- Witness for C9 at a concrete DISPIMG value cell. -/
theorem parseCell_dispimg_override_witness :
    (parseCell (some dispimgCell) "A1" imagesFix).type = "image" ∧
    (parseCell (some dispimgCell) "A1" imagesFix).image = some img1 :=
  parseCell_dispimg_override.1 dispimgCell "A1" imagesFix "=DISPIMG(\"img1\",1)"
    "img1" img1 rfl (by decide) (by decide) (by decide)

end ExcelReader
namespace ExcelReader

set_option maxRecDepth 4000

/-- C1 (code bug): with default options, a floating image anchored at
0-based row 100 outside the declared `A1:A1` dimension does expand the
scan range to row 100 and is counted (`totalImages`, `rowsWithImages`),
but the anchor row 101 is dropped from the emitted rows because all its
cell values are empty — only with `includeEmptyRows` does row 101 surface
with the image bound, contradicting Scenario E and the code's own intent
comment. -/
theorem anchor_row_beyond_dimension_dropped :
    scanEndRow wsScenE floatScenE = 100 ∧
    (parseWorksheet wsScenE "Sheet1" imagesFix {} floatScenE).rows.map (·.rowNumber) = [1] ∧
    ((parseWorksheet wsScenE "Sheet1" imagesFix {} floatScenE).rows.all
      (fun r => r.rowNumber ≠ 101)) = true ∧
    (parseWorksheet wsScenE "Sheet1" imagesFix {} floatScenE).totalImages = 1 ∧
    (parseWorksheet wsScenE "Sheet1" imagesFix {} floatScenE).rowsWithImages = 1 ∧
    ((parseWorksheet wsScenE "Sheet1" imagesFix {includeEmptyRows := true} floatScenE).rows.any
      (fun r => r.rowNumber = 101 && r.imageCount = 1 && r.imageCells.contains "A101")) = true := by
  exact ⟨by decide, by decide, by decide, by decide, by decide, by decide⟩

end ExcelReader
namespace ExcelReader

theorem seenInsert_append (s : List String) (xs ys : List String) :
    seenInsert s (xs ++ ys) = seenInsert (seenInsert s xs) ys := by
  simp [seenInsert, List.foldl_append]

theorem mem_seenInsert (s ids : List String) (x : String) :
    x ∈ seenInsert s ids ↔ x ∈ s ∨ x ∈ ids := by
  induction ids generalizing s with
  | nil => simp [seenInsert]
  | cons i ids ih =>
    rw [show seenInsert s (i :: ids) =
        seenInsert (if s.contains i then s else s ++ [i]) ids from rfl]
    by_cases hc : s.contains i
    · rw [if_pos hc, ih]
      have hi : i ∈ s := by simpa using hc
      simp only [List.mem_cons]
      constructor
      · rintro (h | h)
        · exact Or.inl h
        · exact Or.inr (Or.inr h)
      · rintro (h | rfl | h)
        · exact Or.inl h
        · exact Or.inl hi
        · exact Or.inr h
    · rw [if_neg hc, ih]
      simp only [List.mem_append, List.mem_cons, List.not_mem_nil, or_false]
      constructor
      · rintro ((h | rfl) | h)
        · exact Or.inl h
        · exact Or.inr (Or.inl rfl)
        · exact Or.inr (Or.inr h)
      · rintro (h | rfl | h)
        · exact Or.inl (Or.inl h)
        · exact Or.inl (Or.inr rfl)
        · exact Or.inr h

theorem nodup_seenInsert (s ids : List String) (h : s.Nodup) :
    (seenInsert s ids).Nodup := by
  induction ids generalizing s with
  | nil => exact h
  | cons i ids ih =>
    rw [show seenInsert s (i :: ids) =
        seenInsert (if s.contains i then s else s ++ [i]) ids from rfl]
    by_cases hc : s.contains i
    · rw [if_pos hc]; exact ih s h
    · rw [if_neg hc]
      apply ih
      have hi : i ∉ s := by
        intro hmem
        exact hc (by simpa using hmem)
      simp [List.nodup_append, h, hi]

theorem length_seenInsert_dedup (ids : List String) :
    (seenInsert [] ids).length = ids.dedup.length := by
  have h1 : (seenInsert [] ids).Nodup := nodup_seenInsert [] ids (by simp)
  have h3 : (seenInsert [] ids).toFinset = ids.dedup.toFinset := by
    ext x
    simp only [List.mem_toFinset, List.mem_dedup]
    simpa using mem_seenInsert [] ids x
  calc (seenInsert [] ids).length
      = (seenInsert [] ids).toFinset.card := (List.toFinset_card_of_nodup h1).symm
    _ = ids.dedup.toFinset.card := by rw [h3]
    _ = ids.dedup.length := List.toFinset_card_of_nodup (List.nodup_dedup ids)

theorem processFloatingIds_spec (cellRef : String) (ids : List String) (st : RowState) :
    (processFloatingIds cellRef ids st).seen = seenInsert st.seen ids ∧
    (processFloatingIds cellRef ids st).row.imageCount + st.seen.length =
      st.row.imageCount + (seenInsert st.seen ids).length ∧
    (processFloatingIds cellRef ids st).total + st.seen.length =
      st.total + (seenInsert st.seen ids).length ∧
    (processFloatingIds cellRef ids st).row.rowNumber = st.row.rowNumber ∧
    (processFloatingIds cellRef ids st).row.cells = st.row.cells := by
  induction ids generalizing st with
  | nil => exact ⟨rfl, rfl, rfl, rfl, rfl⟩
  | cons i ids ih =>
    rw [show processFloatingIds cellRef (i :: ids) st =
        processFloatingIds cellRef ids
          (if st.seen.contains i then st
           else { st with
                    seen := st.seen ++ [i]
                    row := { st.row with
                               imageCount := st.row.imageCount + 1
                               imageCells := st.row.imageCells ++ [cellRef] }
                    total := st.total + 1 }) from rfl]
    rw [show seenInsert st.seen (i :: ids) =
        seenInsert (if st.seen.contains i then st.seen else st.seen ++ [i]) ids from rfl]
    by_cases hc : st.seen.contains i
    · rw [if_pos hc, if_pos hc]
      exact ih st
    · rw [if_neg hc, if_neg hc]
      obtain ⟨h1, h2, h3, h4, h5⟩ := ih
        { st with
            seen := st.seen ++ [i]
            row := { st.row with
                       imageCount := st.row.imageCount + 1
                       imageCells := st.row.imageCells ++ [cellRef] }
            total := st.total + 1 }
      dsimp only at h1 h2 h3 h4 h5 ⊢
      simp only [List.length_append, List.length_cons, List.length_nil] at h2 h3
      refine ⟨h1, ?_, ?_, h4, h5⟩
      · omega
      · omega

end ExcelReader
namespace ExcelReader

theorem processColumn_spec (ws : Worksheet) (images : List (String × CellImage))
    (options : ParseOptions) (floating : List ((Nat × Nat) × List String))
    (rowNum : Nat) (st : RowState) (colNum : Nat) :
    (processColumn ws images options floating rowNum st colNum).seen =
      seenInsert st.seen ((mapGet floating (rowNum, colNum)).getD []) ∧
    (processColumn ws images options floating rowNum st colNum).row.imageCount +
        st.seen.length =
      st.row.imageCount +
        (processColumn ws images options floating rowNum st colNum).seen.length +
        (if dispimgHit ws images options rowNum colNum then 1 else 0) ∧
    (processColumn ws images options floating rowNum st colNum).total + st.seen.length =
      st.total + (processColumn ws images options floating rowNum st colNum).seen.length +
        (if dispimgHit ws images options rowNum colNum then 1 else 0) ∧
    (processColumn ws images options floating rowNum st colNum).row.rowNumber =
      st.row.rowNumber := by
  obtain ⟨hs, hc2, ht, hr, hcells⟩ := processFloatingIds_spec (encodeCell rowNum colNum)
    ((mapGet floating (rowNum, colNum)).getD []) st
  have hslen : (processFloatingIds (encodeCell rowNum colNum)
      ((mapGet floating (rowNum, colNum)).getD []) st).seen.length =
      (seenInsert st.seen ((mapGet floating (rowNum, colNum)).getD [])).length := by
    rw [hs]
  unfold processColumn
  by_cases hvis : (mapGet ws.cells (rowNum, colNum)).isSome || options.includeEmptyColumns
  · rw [if_pos hvis]
    dsimp only
    by_cases himg : isImageCell (mapGet ws.cells (rowNum, colNum))
    · rw [if_pos himg]
      cases hx : extractImageIdFromCell (mapGet ws.cells (rowNum, colNum)) with
      | none =>
        have hhit : dispimgHit ws images options rowNum colNum = false := by
          simp [dispimgHit, hx]
        have hone : (if dispimgHit ws images options rowNum colNum then 1 else 0) = (0 : Nat) := by
          rw [hhit]; decide
        rw [hone]
        dsimp only
        exact ⟨hs, by omega, by omega, hr⟩
      | some imageId =>
        dsimp only
        by_cases hhas : mapHas images imageId
        · rw [if_pos hhas]
          have hhit : dispimgHit ws images options rowNum colNum = true := by
            simp [dispimgHit, hvis, himg, hx, hhas]
          have hone : (if dispimgHit ws images options rowNum colNum then 1 else 0) = (1 : Nat) := by
            rw [hhit]; decide
          rw [hone]
          dsimp only
          exact ⟨hs, by omega, by omega, hr⟩
        · rw [if_neg hhas]
          have hhit : dispimgHit ws images options rowNum colNum = false := by
            have hf : mapHas images imageId = false := by simpa using hhas
            simp [dispimgHit, hx, hf]
          have hone : (if dispimgHit ws images options rowNum colNum then 1 else 0) = (0 : Nat) := by
            rw [hhit]; decide
          rw [hone]
          dsimp only
          exact ⟨hs, by omega, by omega, hr⟩
    · rw [if_neg himg]
      have hhit : dispimgHit ws images options rowNum colNum = false := by
        have hf : isImageCell (mapGet ws.cells (rowNum, colNum)) = false := by
          simpa using himg
        simp [dispimgHit, hf]
      have hone : (if dispimgHit ws images options rowNum colNum then 1 else 0) = (0 : Nat) := by
        rw [hhit]; decide
      rw [hone]
      dsimp only
      exact ⟨hs, by omega, by omega, hr⟩
  · rw [if_neg hvis]
    have hhit : dispimgHit ws images options rowNum colNum = false := by
      have hf : ((mapGet ws.cells (rowNum, colNum)).isSome ||
          options.includeEmptyColumns) = false := by
        simpa using hvis
      simp [dispimgHit, hf]
    have hone : (if dispimgHit ws images options rowNum colNum then 1 else 0) = (0 : Nat) := by
      rw [hhit]; decide
    rw [hone]
    exact ⟨hs, by omega, by omega, hr⟩

end ExcelReader
namespace ExcelReader

theorem foldCols_spec (ws : Worksheet) (images : List (String × CellImage))
    (options : ParseOptions) (floating : List ((Nat × Nat) × List String))
    (rowNum : Nat) (cols : List Nat) (st : RowState) :
    (cols.foldl (processColumn ws images options floating rowNum) st).seen =
      seenInsert st.seen (cols.flatMap (fun c => (mapGet floating (rowNum, c)).getD [])) ∧
    (cols.foldl (processColumn ws images options floating rowNum) st).row.imageCount +
        st.seen.length =
      st.row.imageCount +
        (cols.foldl (processColumn ws images options floating rowNum) st).seen.length +
        (cols.filter (fun c => dispimgHit ws images options rowNum c)).length ∧
    (cols.foldl (processColumn ws images options floating rowNum) st).total +
        st.seen.length =
      st.total +
        (cols.foldl (processColumn ws images options floating rowNum) st).seen.length +
        (cols.filter (fun c => dispimgHit ws images options rowNum c)).length ∧
    (cols.foldl (processColumn ws images options floating rowNum) st).row.rowNumber =
      st.row.rowNumber := by
  induction cols generalizing st with
  | nil =>
    refine ⟨rfl, by simp, by simp, rfl⟩
  | cons c cols ih =>
    simp only [List.foldl_cons, List.flatMap_cons, List.filter_cons]
    obtain ⟨ps, pc2, pt, pr⟩ := processColumn_spec ws images options floating rowNum st c
    obtain ⟨is2, ic, it, ir⟩ := ih (processColumn ws images options floating rowNum st c)
    have hIl : (if dispimgHit ws images options rowNum c = true then
        c :: cols.filter (fun c => dispimgHit ws images options rowNum c)
        else cols.filter (fun c => dispimgHit ws images options rowNum c)).length =
        (cols.filter (fun c => dispimgHit ws images options rowNum c)).length +
        (if dispimgHit ws images options rowNum c then 1 else 0) := by
      cases hfc : dispimgHit ws images options rowNum c <;> simp [hfc]
    refine ⟨?_, ?_, ?_, ?_⟩
    · rw [is2, ps, seenInsert_append]
    · rw [hIl]
      omega
    · rw [hIl]
      omega
    · rw [ir, pr]

end ExcelReader
namespace ExcelReader

theorem foldCols_result (ws : Worksheet) (images : List (String × CellImage))
    (options : ParseOptions) (floating : List ((Nat × Nat) × List String))
    (rowNum : Nat) (cols : List Nat) (row0 : RowData) (h0 : row0.imageCount = 0) :
    (cols.foldl (processColumn ws images options floating rowNum)
        ⟨[], row0, 0⟩).row.imageCount =
      (cols.flatMap (fun c => (mapGet floating (rowNum, c)).getD [])).dedup.length +
        (cols.filter (fun c => dispimgHit ws images options rowNum c)).length ∧
    (cols.foldl (processColumn ws images options floating rowNum) ⟨[], row0, 0⟩).total =
      (cols.foldl (processColumn ws images options floating rowNum)
        ⟨[], row0, 0⟩).row.imageCount ∧
    (cols.foldl (processColumn ws images options floating rowNum)
        ⟨[], row0, 0⟩).row.rowNumber = row0.rowNumber := by
  obtain ⟨fs, fc, ft, fr⟩ := foldCols_spec ws images options floating rowNum cols ⟨[], row0, 0⟩
  dsimp only at fs fc ft fr
  have hlen : (cols.foldl (processColumn ws images options floating rowNum)
      ⟨[], row0, 0⟩).seen.length =
      (cols.flatMap (fun c => (mapGet floating (rowNum, c)).getD [])).dedup.length := by
    rw [fs]
    exact length_seenInsert_dedup _
  simp only [List.length_nil, h0] at fc ft
  exact ⟨by omega, by omega, fr⟩

theorem processRow_spec (ws : Worksheet) (images : List (String × CellImage))
    (options : ParseOptions) (floating : List ((Nat × Nat) × List String))
    (startCol endCol rowNum : Nat) :
    (processRow ws images options floating startCol endCol rowNum).1.imageCount =
      (rowFloatingIds floating (natRange startCol endCol) rowNum).dedup.length +
        ((natRange startCol endCol).filter
          (fun c => dispimgHit ws images options rowNum c)).length ∧
    (processRow ws images options floating startCol endCol rowNum).2 =
      (processRow ws images options floating startCol endCol rowNum).1.imageCount ∧
    (processRow ws images options floating startCol endCol rowNum).1.rowNumber =
      rowNum + 1 := by
  unfold processRow
  dsimp only
  cases hm : mapGet ws.rowsMeta rowNum with
  | none =>
    obtain ⟨h1, h2, h3⟩ := foldCols_result ws images options floating rowNum
      (natRange startCol endCol)
      { rowNumber := rowNum + 1, height := none, customHeight := none
        cells := [], imageCount := 0, imageCells := [] } rfl
    exact ⟨h1, h2, h3⟩
  | some hpt =>
    dsimp only
    by_cases hz : hpt ≠ 0
    · rw [if_pos hz]
      obtain ⟨h1, h2, h3⟩ := foldCols_result ws images options floating rowNum
        (natRange startCol endCol)
        { rowNumber := rowNum + 1, height := some hpt, customHeight := some true
          cells := [], imageCount := 0, imageCells := [] } rfl
      exact ⟨h1, h2, h3⟩
    · rw [if_neg hz]
      obtain ⟨h1, h2, h3⟩ := foldCols_result ws images options floating rowNum
        (natRange startCol endCol)
        { rowNumber := rowNum + 1, height := none, customHeight := none
          cells := [], imageCount := 0, imageCells := [] } rfl
      exact ⟨h1, h2, h3⟩

end ExcelReader
namespace ExcelReader

theorem sheetFold_spec (ws : Worksheet) (images : List (String × CellImage))
    (options : ParseOptions) (floating : List ((Nat × Nat) × List String))
    (startCol endCol : Nat) (R : List Nat) (acc : List RowData × Nat × Nat) :
    (R.foldl (sheetStep ws images options floating startCol endCol) acc).2.1 =
      acc.2.1 + (R.map (fun r =>
        (processRow ws images options floating startCol endCol r).2)).sum ∧
    (∀ row ∈ (R.foldl (sheetStep ws images options floating startCol endCol) acc).1,
      row ∈ acc.1 ∨ ∃ r ∈ R,
        row = (processRow ws images options floating startCol endCol r).1) ∧
    (options.includeEmptyRows = true →
      (R.foldl (sheetStep ws images options floating startCol endCol) acc).1 =
        acc.1 ++ R.map (fun r =>
          (processRow ws images options floating startCol endCol r).1)) := by
  induction R generalizing acc with
  | nil =>
    refine ⟨by simp, fun row h => Or.inl h, fun _ => by simp⟩
  | cons r R ih =>
    obtain ⟨rows, tot, rwi⟩ := acc
    rw [List.foldl_cons]
    have hstep : sheetStep ws images options floating startCol endCol (rows, tot, rwi) r =
        ((if options.includeEmptyRows ||
            (processRow ws images options floating startCol endCol r).1.cells.any
              (fun c => c.value ≠ "") then
          rows ++ [(processRow ws images options floating startCol endCol r).1]
          else rows),
         tot + (processRow ws images options floating startCol endCol r).2,
         (if (processRow ws images options floating startCol endCol r).1.imageCount > 0 then
           rwi + 1 else rwi)) := by
      unfold sheetStep
      dsimp only
    rw [hstep]
    obtain ⟨i1, i2, i3⟩ := ih _
    refine ⟨?_, ?_, ?_⟩
    · rw [i1]
      dsimp only
      rw [List.map_cons, List.sum_cons]
      omega
    · intro row hrow
      rcases i2 row hrow with hacc | ⟨r', hr', heq⟩
      · dsimp only at hacc
        by_cases hkeep : options.includeEmptyRows ||
            (processRow ws images options floating startCol endCol r).1.cells.any
              (fun c => c.value ≠ "")
        · rw [if_pos hkeep] at hacc
          rcases List.mem_append.mp hacc with h | h
          · exact Or.inl h
          · exact Or.inr ⟨r, List.mem_cons_self r R, by simpa using h⟩
        · rw [if_neg hkeep] at hacc
          exact Or.inl hacc
      · exact Or.inr ⟨r', List.mem_cons_of_mem r hr', heq⟩
    · intro hER
      have hkeep : (options.includeEmptyRows ||
          (processRow ws images options floating startCol endCol r).1.cells.any
            (fun c => c.value ≠ "")) = true := by
        simp [hER]
      rw [i3 hER]
      dsimp only
      rw [if_pos hkeep, List.map_cons, List.append_assoc, List.singleton_append]

end ExcelReader
namespace ExcelReader

set_option maxRecDepth 4000

/-- C3 counterexample: a floating image on an empty out-of-dimension row is
counted in `totalImages` (1) but its row is dropped from the emitted rows,
whose `imageCount`s sum to 0 — so `totalImages` is not the sum over the
emitted rows the claim describes. -/
theorem totalImages_claim_cex :
    (parseWorksheet wsScenE "Sheet1" imagesFix {} floatScenE).totalImages = 1 ∧
    (((parseWorksheet wsScenE "Sheet1" imagesFix {} floatScenE).rows.map
      (fun r => r.imageCount)).sum) = 0 :=
  ⟨by decide, by decide⟩

/-- C3 amended: `totalImages` equals the sum of per-row `imageCount` over
every row of the scan range — including rows later dropped from the
emitted rows array (no cross-row dedup is applied); when `includeEmptyRows`
is set every scanned row is emitted and `totalImages` is exactly the sum of
the emitted rows' `imageCount`s. -/
theorem totalImages_sum_over_scanned (ws : Worksheet) (sheetName : String)
    (images : List (String × CellImage)) (options : ParseOptions)
    (floating : List ((Nat × Nat) × List String)) :
    (parseWorksheet ws sheetName images options floating).totalImages =
      ((natRange (scanStartRow ws floating) (scanEndRow ws floating)).map
        (fun r => (processRow ws images options floating (scanStartCol ws floating)
          (scanEndCol ws floating) r).1.imageCount)).sum ∧
    (options.includeEmptyRows = true →
      (parseWorksheet ws sheetName images options floating).totalImages =
        ((parseWorksheet ws sheetName images options floating).rows.map
          (fun r => r.imageCount)).sum) := by
  obtain ⟨s1, s2, s3⟩ := sheetFold_spec ws images options floating
    (scanStartCol ws floating) (scanEndCol ws floating)
    (natRange (scanStartRow ws floating) (scanEndRow ws floating)) ([], 0, 0)
  have hpr : ∀ r, (processRow ws images options floating (scanStartCol ws floating)
      (scanEndCol ws floating) r).2 =
      (processRow ws images options floating (scanStartCol ws floating)
        (scanEndCol ws floating) r).1.imageCount :=
    fun r => (processRow_spec ws images options floating _ _ r).2.1
  have htot : (parseWorksheet ws sheetName images options floating).totalImages =
      ((natRange (scanStartRow ws floating) (scanEndRow ws floating)).foldl
        (sheetStep ws images options floating (scanStartCol ws floating)
          (scanEndCol ws floating)) ([], 0, 0)).2.1 := rfl
  have hrows : (parseWorksheet ws sheetName images options floating).rows =
      ((natRange (scanStartRow ws floating) (scanEndRow ws floating)).foldl
        (sheetStep ws images options floating (scanStartCol ws floating)
          (scanEndCol ws floating)) ([], 0, 0)).1 := rfl
  constructor
  · rw [htot, s1]
    simp only [hpr, Nat.zero_add]
  · intro hER
    rw [htot, hrows, s3 hER, s1]
    simp only [hpr, List.nil_append, List.map_map, Nat.zero_add]
    rfl

/-- Witness for the amended C3 with `includeEmptyRows` set. -/
theorem totalImages_sum_over_scanned_witness :
    (parseWorksheet wsScenE "Sheet1" imagesFix {includeEmptyRows := true}
      floatScenE).totalImages =
      ((parseWorksheet wsScenE "Sheet1" imagesFix {includeEmptyRows := true}
        floatScenE).rows.map (fun r => r.imageCount)).sum :=
  (totalImages_sum_over_scanned wsScenE "Sheet1" imagesFix {includeEmptyRows := true}
    floatScenE).2 rfl

/-- C2 counterexample: one row holding the same resolvable DISPIMG
reference in two cells reports `imageCount = 2`, yet the set of distinct
image ids bound in that row has size 1 — named-cell occurrences are not
deduplicated per row. -/
theorem row_imageCount_claim_cex :
    ((parseWorksheet wsTwoDispimg "S" imagesFix {} []).rows.map
      (fun r => r.imageCount)) = [2] ∧
    (specRowBoundImageIds wsTwoDispimg imagesFix [] (natRange 0 1) 0).dedup.length = 1 :=
  ⟨by decide, by decide⟩

/-- C2 amended: every emitted row's `imageCount` is the number of distinct
floating image ids bound to the row's cells plus the number of cells whose
DISPIMG reference resolves in the registry, the latter counted once per
cell without per-row dedup (only floating ids pass through the `rowSeen`
set). -/
theorem row_imageCount_formula (ws : Worksheet) (sheetName : String)
    (images : List (String × CellImage)) (options : ParseOptions)
    (floating : List ((Nat × Nat) × List String)) :
    ∀ row ∈ (parseWorksheet ws sheetName images options floating).rows,
      ∃ r, r ∈ natRange (scanStartRow ws floating) (scanEndRow ws floating) ∧
        row = (processRow ws images options floating (scanStartCol ws floating)
          (scanEndCol ws floating) r).1 ∧
        row.rowNumber = r + 1 ∧
        row.imageCount =
          (rowFloatingIds floating
            (natRange (scanStartCol ws floating) (scanEndCol ws floating)) r).dedup.length +
          ((natRange (scanStartCol ws floating) (scanEndCol ws floating)).filter
            (fun c => dispimgHit ws images options r c)).length := by
  intro row hrow
  obtain ⟨s1, s2, s3⟩ := sheetFold_spec ws images options floating
    (scanStartCol ws floating) (scanEndCol ws floating)
    (natRange (scanStartRow ws floating) (scanEndRow ws floating)) ([], 0, 0)
  have hrows : (parseWorksheet ws sheetName images options floating).rows =
      ((natRange (scanStartRow ws floating) (scanEndRow ws floating)).foldl
        (sheetStep ws images options floating (scanStartCol ws floating)
          (scanEndCol ws floating)) ([], 0, 0)).1 := rfl
  rw [hrows] at hrow
  rcases s2 row hrow with habs | ⟨r, hr, heq⟩
  · simp at habs
  · refine ⟨r, hr, heq, ?_, ?_⟩
    · rw [heq]
      exact (processRow_spec ws images options floating _ _ r).2.2
    · rw [heq]
      exact (processRow_spec ws images options floating _ _ r).1

/-- Witness for the amended C2 at the concrete double-DISPIMG row. -/
theorem row_imageCount_formula_witness :
    ∃ r, r ∈ natRange (scanStartRow wsTwoDispimg []) (scanEndRow wsTwoDispimg []) ∧
      ((parseWorksheet wsTwoDispimg "S" imagesFix {} []).rows.getD 0
          ⟨0, none, none, [], 0, []⟩) =
        (processRow wsTwoDispimg imagesFix {} [] (scanStartCol wsTwoDispimg [])
          (scanEndCol wsTwoDispimg []) r).1 ∧
      ((parseWorksheet wsTwoDispimg "S" imagesFix {} []).rows.getD 0
          ⟨0, none, none, [], 0, []⟩).rowNumber = r + 1 ∧
      ((parseWorksheet wsTwoDispimg "S" imagesFix {} []).rows.getD 0
          ⟨0, none, none, [], 0, []⟩).imageCount =
        (rowFloatingIds []
          (natRange (scanStartCol wsTwoDispimg []) (scanEndCol wsTwoDispimg [])) r).dedup.length +
        ((natRange (scanStartCol wsTwoDispimg []) (scanEndCol wsTwoDispimg [])).filter
          (fun c => dispimgHit wsTwoDispimg imagesFix {} r c)).length :=
  row_imageCount_formula wsTwoDispimg "S" imagesFix {} []
    ((parseWorksheet wsTwoDispimg "S" imagesFix {} []).rows.getD 0
      ⟨0, none, none, [], 0, []⟩) (by decide)

end ExcelReader
